import Mathlib

/-!
Global Bank Multiledger System: the browser client `frontend/app.js`

A shallow embedding of the client script and of the ledger service it talks to.

* ECMAScript Number values are `JSNum`: NaN, the two infinities and the finite
  values, held as rationals (every finite double is a rational; `+0` and `-0`
  are both `fin 0`, the script never tells them apart).
* Values read out of a JSON document are `JSVal`: a JSON scalar, or
  `undefined` for a member that is missing. The members `detail` and
  `new_balance` of a write response are any JSON value (`JSON`).
* The table body is the markup last assigned to `tbody.innerHTML`; what the
  getter gives back for it is the host's `readBack`.
* What ECMAScript and the DOM leave to the engine (conversion between text and
  numbers, locale formatting, the text of built-in functions and of engine
  raised errors) is a `Host`, a parameter of the model.
* The page is an explicit state `Page`; a handler is a function on pages. An
  exception keeps the writes made before it, so a step returns the page
  together with its completion.
* One run of one handler is modelled; handlers interleaving at an `await` and
  the 500 ms timer of the toast are outside the model (the timer is only
  counted).
-/

namespace GlobalBank

/-! ## Numbers and values -/

/-- An ECMAScript Number: NaN, an infinity, or a finite value. -/
inductive JSNum where
  | nan
  | negInf
  | fin (q : ℚ)
  | posInf
  deriving DecidableEq

namespace JSNum

/-- ToBoolean on a Number: false for NaN and zero. -/
def truthy : JSNum → Bool
  | nan => false
  | fin q => decide (q ≠ 0)
  | negInf => true
  | posInf => true

/-- The operator `a < b` on Numbers; false as soon as one side is NaN. -/
def lt : JSNum → JSNum → Bool
  | nan, _ => false
  | _, nan => false
  | negInf, negInf => false
  | negInf, _ => true
  | fin _, negInf => false
  | fin a, fin b => decide (a < b)
  | fin _, posInf => true
  | posInf, _ => false

/-- The operator `a <= b` on Numbers; false as soon as one side is NaN. -/
def le : JSNum → JSNum → Bool
  | nan, _ => false
  | _, nan => false
  | negInf, _ => true
  | fin _, negInf => false
  | fin a, fin b => decide (a ≤ b)
  | fin _, posInf => true
  | posInf, posInf => true
  | posInf, _ => false

/-- The operator `a > b`, which ECMAScript evaluates as `b < a`. -/
def gt (a b : JSNum) : Bool := lt b a

/-- The operator `a >= b`, which ECMAScript evaluates as `b <= a`. -/
def ge (a b : JSNum) : Bool := le b a

/-- A positive integer: finite, whole and at least one. -/
def isPositiveInteger : JSNum → Bool
  | fin q => decide (q.den = 1 ∧ 0 < q.num)
  | _ => false

end JSNum

/-- A value read from a JSON document: a scalar, or `undefined` for a member
that is not there. -/
inductive JSVal where
  | undefined
  | null
  | bool (b : Bool)
  | num (x : JSNum)
  | str (s : String)
  deriving DecidableEq

/-- A JSON value, as `JSON.parse` builds it. -/
inductive JSON where
  | null
  | bool (b : Bool)
  | num (x : JSNum)
  | str (s : String)
  | arr (items : List JSON)
  | obj (members : List (String × JSON))

/-! ## Table markup as the browser reads it back -/

/-- The characters that reading markup back can rewrite inside a text: the
markup characters, the no-break space, carriage return and NUL. -/
def rewritten : List Char :=
  ['<', '>', '&', Char.ofNat 160, Char.ofNat 13, Char.ofNat 0]

/-- A text that reads back as written. -/
def plainText (s : String) : Bool := s.toList.all fun c => !(rewritten.contains c)

/-- A text that opens no tag. -/
def tagFree (s : String) : Bool := s.toList.all fun c => c != '<'

/-- Whitespace between the elements of a table: spaces, line feeds, tabs and
form feeds. -/
def isGap (s : String) : Bool :=
  s.toList.all fun c => [' ', Char.ofNat 10, Char.ofNat 9, Char.ofNat 12].contains c

/-- The content of a cell: a text, or a text in a `strong` element. -/
inductive Inline where
  | text (s : String)
  | strong (s : String)
  deriving DecidableEq

/-- A child of a row: whitespace, or a cell. -/
inductive RowItem where
  | gap (s : String)
  | td (content : Inline)
  deriving DecidableEq

/-- A child of the table body: whitespace, or a row. -/
inductive BodyItem where
  | gap (s : String)
  | tr (items : List RowItem)
  deriving DecidableEq

/-- The text of a cell content. -/
def Inline.shown : Inline → String
  | Inline.text s => s
  | Inline.strong s => s

/-- The markup of a cell content, its text written as it is. -/
def Inline.markup : Inline → String
  | Inline.text s => s
  | Inline.strong s => "<strong>" ++ s ++ "</strong>"

/-- The markup of a child of a row. -/
def RowItem.markup : RowItem → String
  | RowItem.gap s => s
  | RowItem.td c => "<td>" ++ c.markup ++ "</td>"

/-- The markup of the children of a row, in order. -/
def rowItemsMarkup : List RowItem → String
  | [] => ""
  | i :: rest => i.markup ++ rowItemsMarkup rest

/-- The markup of a child of the body. -/
def BodyItem.markup : BodyItem → String
  | BodyItem.gap s => s
  | BodyItem.tr items => "<tr>" ++ rowItemsMarkup items ++ "</tr>"

/-- The markup of the children of the body, in order. -/
def bodyMarkup : List BodyItem → String
  | [] => ""
  | i :: rest => i.markup ++ bodyMarkup rest

/-- A child of a row that the parser takes as written: whitespace, or a cell
whose text opens no tag. -/
def RowItem.wellFormed : RowItem → Bool
  | RowItem.gap s => isGap s
  | RowItem.td c => tagFree c.shown

/-- A child of the body that the parser takes as written. -/
def BodyItem.wellFormed : BodyItem → Bool
  | BodyItem.gap s => isGap s
  | BodyItem.tr items => items.all RowItem.wellFormed

/-- A text after the body was read back: it opens no tag, and a plain text is
the text that was written. -/
def textKept (written back : String) : Prop :=
  tagFree back = true ∧ (plainText written = true → back = written)

/-- A cell content after the body was read back: the same element around a kept
text. -/
def Inline.kept : Inline → Inline → Prop
  | Inline.text a, Inline.text b => textKept a b
  | Inline.strong a, Inline.strong b => textKept a b
  | _, _ => False

/-- A child of a row after the body was read back. -/
def RowItem.kept : RowItem → RowItem → Prop
  | RowItem.gap a, RowItem.gap b => b = a
  | RowItem.td a, RowItem.td b => a.kept b
  | _, _ => False

/-- A child of the body after the body was read back: the same whitespace, or a
row with the same children. -/
def BodyItem.kept : BodyItem → BodyItem → Prop
  | BodyItem.gap a, BodyItem.gap b => b = a
  | BodyItem.tr a, BodyItem.tr b => List.Forall₂ RowItem.kept a b
  | _, _ => False

/-- What the engine decides: the built-in conversions whose result ECMAScript
leaves to the implementation or that depend on the locale, and the message
texts of errors the engine raises. -/
structure Host where
  /-- The conversion `Number(text)` (StringToNumber). -/
  stringToNumber : String → JSNum
  /-- The conversion Number::toString on a finite non-zero value. -/
  numberToString : ℚ → String
  /-- The call `num.toLocaleString(undefined, ...)` with two fraction digits. -/
  toLocaleString : JSNum → String
  /-- The source text of the built-in function stored under a property name. -/
  nativeSource : String → String
  /-- The message of the TypeError for reading a property of null or undefined. -/
  nullReadMessage : JSVal → String → String
  /-- The message of the exception for a class token that contains whitespace. -/
  invalidTokenMessage : String → String
  /-- The message of the TypeError for an object that has no primitive value. -/
  notPrimitiveMessage : String
  /-- What the getter `tbody.innerHTML` returns once this markup was assigned. -/
  readBack : String → String
  /-- Number::toString writes a value of 10^21 or more with an exponent. -/
  exponent_form : ∀ q : ℚ, (10 : ℚ) ^ 21 ≤ q → 'e' ∈ (numberToString q).toList
  /-- Rows of cells whose texts open no tag are read back as the same rows of
  the same cells; a text may come back rewritten (`&` as `&amp;`), a plain text
  comes back as written. -/
  readBack_rows : ∀ body : List BodyItem, body.all BodyItem.wellFormed = true →
    ∃ back, List.Forall₂ BodyItem.kept body back ∧ readBack (bodyMarkup body) = bodyMarkup back

/-- ToBoolean. -/
def JSVal.truthy : JSVal → Bool
  | .undefined => false
  | .null => false
  | .bool b => b
  | .num x => x.truthy
  | .str s => decide (s ≠ "")

/-- The conversion `Number(value)`. -/
def toNumber (h : Host) : JSVal → JSNum
  | .undefined => JSNum.nan
  | .null => JSNum.fin 0
  | .bool b => JSNum.fin (if b then 1 else 0)
  | .num x => x
  | .str s => h.stringToNumber s

/-- Number::toString. -/
def numberText (h : Host) : JSNum → String
  | .nan => "NaN"
  | .negInf => "-Infinity"
  | .posInf => "Infinity"
  | .fin q => if q = 0 then "0" else h.numberToString q

/-- ToString, as applied by a template literal. -/
def toText (h : Host) : JSVal → String
  | .undefined => "undefined"
  | .null => "null"
  | .bool b => if b then "true" else "false"
  | .num x => numberText h x
  | .str s => s

/-- ToBoolean on a member that may be missing: an array or an object is true. -/
def JSON.truthy : Option JSON → Bool
  | none => false
  | some JSON.null => false
  | some (JSON.bool b) => b
  | some (JSON.num x) => x.truthy
  | some (JSON.str s) => decide (s ≠ "")
  | some (JSON.arr _) => true
  | some (JSON.obj _) => true

mutual
/-- ToString on a JSON value: an array is its elements joined by commas, an
object is `[object Object]`, and an object with a member `toString` of its own
has no string form (that member is not callable). -/
def JSON.text (h : Host) : JSON → Except String String
  | JSON.null => Except.ok "null"
  | JSON.bool b => Except.ok (if b then "true" else "false")
  | JSON.num x => Except.ok (numberText h x)
  | JSON.str s => Except.ok s
  | JSON.arr items => JSON.joined h items
  | JSON.obj members =>
    if members.any (fun m => m.1 == "toString") then Except.error h.notPrimitiveMessage
    else Except.ok "[object Object]"
/-- The call `items.join(",")`: a null element is written as the empty text. -/
def JSON.joined (h : Host) : List JSON → Except String String
  | [] => Except.ok ""
  | x :: rest =>
    match (match x with
      | JSON.null => Except.ok ""
      | v => JSON.text h v) with
    | Except.error m => Except.error m
    | Except.ok s =>
      match rest with
      | [] => Except.ok s
      | _ :: _ =>
        match JSON.joined h rest with
        | Except.error m => Except.error m
        | Except.ok t => Except.ok (s ++ "," ++ t)
end

/-- ToPrimitive on a member that may be missing: a scalar is itself, an array
or an object is its string form. -/
def JSON.primitive (h : Host) : Option JSON → Except String JSVal
  | none => Except.ok JSVal.undefined
  | some JSON.null => Except.ok JSVal.null
  | some (JSON.bool b) => Except.ok (JSVal.bool b)
  | some (JSON.num x) => Except.ok (JSVal.num x)
  | some (JSON.str s) => Except.ok (JSVal.str s)
  | some (JSON.arr items) =>
    match JSON.joined h items with
    | Except.ok s => Except.ok (JSVal.str s)
    | Except.error m => Except.error m
  | some (JSON.obj members) =>
    match JSON.text h (JSON.obj members) with
    | Except.ok s => Except.ok (JSVal.str s)
    | Except.error m => Except.error m

/-- A scalar as the member it was read from. -/
def JSVal.json : JSVal → Option JSON
  | JSVal.undefined => none
  | JSVal.null => some JSON.null
  | JSVal.bool b => some (JSON.bool b)
  | JSVal.num x => some (JSON.num x)
  | JSVal.str s => some (JSON.str s)

/-! ## Validation -/

deriving instance DecidableEq for Except

/-- The three form fields as `getValidatedInputs` reads them:
`Number(userId.value)`, `currency.value` and `Number(amount.value)`. -/
structure Fields where
  userId : JSNum
  currency : String
  amount : JSNum
  deriving DecidableEq

/-- The object `{ userId, currency, amount }` that validation returns. -/
structure Inputs where
  userId : JSNum
  currency : String
  amount : JSNum
  deriving DecidableEq

/-- The function `getValidatedInputs(requireAmount = false)`; `Except.error`
carries the message of the thrown `Error`. -/
def getValidatedInputs (f : Fields) (requireAmount : Bool) : Except String Inputs :=
  if !f.userId.truthy || f.userId.lt (JSNum.fin 1) then
    Except.error "Invalid User ID"
  else if requireAmount && (!f.amount.truthy || f.amount.le (JSNum.fin 0)) then
    Except.error "Invalid Amount"
  else
    Except.ok ⟨f.userId, f.currency, f.amount⟩

/-! ## Currency format -/

/-- The decimal digits of `n`, most significant first; `fuel` bounds their
number. -/
def decimalAux : Nat → Nat → List Char
  | 0, _ => []
  | fuel + 1, n =>
    if n < 10 then [Nat.digitChar n]
    else decimalAux fuel (n / 10) ++ [Nat.digitChar (n % 10)]

/-- The digits of the decimal representation of `n` (`"0"` for zero). -/
def decimal (n : Nat) : List Char := decimalAux (n + 1) n

/-- Steps 7.b and 7.c of Number.prototype.toFixed for two fraction digits: the
digits of `n`, padded with zeros to three, with a point before the last two. -/
def fixedDigits (n : Nat) : List Char :=
  let m := decimal n
  let m := if m.length ≤ 2 then List.replicate (3 - m.length) '0' ++ m else m
  m.take (m.length - 2) ++ '.' :: m.drop (m.length - 2)

/-- The integer `n` for which `n / 100 - x` is closest to zero, the larger one
on a tie (`x` is not negative). -/
def nearestHundredth (x : ℚ) : Nat := ⌊x * 100 + 1 / 2⌋.toNat

/-- The call `num.toFixed(2)`. -/
def toFixed2 (h : Host) : JSNum → String
  | .nan => "NaN"
  | .negInf => "-Infinity"
  | .posInf => "Infinity"
  | .fin q =>
    (if q < 0 then "-" else "") ++
      (if (10 : ℚ) ^ 21 ≤ |q| then h.numberToString |q|
       else String.mk (fixedDigits (nearestHundredth |q|)))

/-- The own properties of the object literal `symbols`. -/
def symbolTable : List (String × String) :=
  [("INR", "₹"), ("USD", "$"), ("CAD", "C$"), ("GBP", "£"), ("EUR", "€"),
   ("DKK", "kr "), ("CHF", "CHF "), ("AUD", "A$"), ("NZD", "NZ$"), ("SGD", "S$"),
   ("RUB", "₽"), ("JPY", "¥"), ("CNY", "¥"),
   ("AED", "د.إ "), ("KWD", "د.ك "), ("BHD", "ب.د "),
   ("JOD", "د.ا "), ("OMR", "ر.ع "), ("BRL", "R$"), ("ZAR", "R ")]

/-- The function-valued properties that every object inherits from
`Object.prototype`. -/
def inheritedFunctions : List String :=
  ["constructor", "hasOwnProperty", "isPrototypeOf", "propertyIsEnumerable",
   "toLocaleString", "toString", "valueOf",
   "__defineGetter__", "__defineSetter__", "__lookupGetter__", "__lookupSetter__"]

/-- What the property read `symbols[currency]` yields. -/
inductive Looked where
  | absent
  | text (s : String)
  | prototype
  | native (name : String)
  deriving DecidableEq

/-- The property read `symbols[currency]`: an own property of the literal, else
a property of `Object.prototype` (`__proto__` reads the prototype object itself),
else `undefined`. -/
def symbols (currency : String) : Looked :=
  match symbolTable.lookup currency with
  | some s => Looked.text s
  | none =>
    if currency ∈ inheritedFunctions then Looked.native currency
    else if currency = "__proto__" then Looked.prototype
    else Looked.absent

/-- The text that `symbols[currency] || (currency + " ")` puts in front of the
amount: objects are truthy and are converted by `+` to their string form. -/
def symbolText (h : Host) (currency : String) : String :=
  match symbols currency with
  | Looked.absent => currency ++ " "
  | Looked.text s => if s = "" then currency ++ " " else s
  | Looked.prototype => "[object Object]"
  | Looked.native name => h.nativeSource name

/-- The function `formatCurrency(currency, amount)`. -/
def formatCurrency (h : Host) (currency : String) (amount : JSVal) : String :=
  symbolText h currency ++ toFixed2 h (toNumber h amount)

/-- The function `safeNumber(value)`. -/
def safeNumber (h : Host) (value : JSVal) : String :=
  let num := toNumber h value
  if !num.truthy then "0.00" else h.toLocaleString num

/-! ## The page and the network -/

/-- The body `JSON.stringify({ user_id, currency, amount })`; a Number that is
not finite is written `null` (here `none`). -/
structure WriteBody where
  user_id : Option ℚ
  currency : String
  amount : Option ℚ
  deriving DecidableEq

/-- A request handed to `fetch`. -/
inductive Request where
  | balance (userId : JSNum)
  | transactions (userId : JSNum)
  | deposit (body : WriteBody)
  | withdraw (body : WriteBody)
  deriving DecidableEq

/-- The parts of the document the script writes, the console, and the requests
sent so far. -/
structure Page where
  toastText : String
  toastClass : String
  toastTimers : Nat
  summaryUser : String
  balanceCurrency : String
  balanceAmount : String
  boxClass : String
  tbody : String
  console : List String
  sent : List Request
  deriving DecidableEq

/-- What `await res.json()` gives: a rejection, the value `null`, or a value
whose members can be read. -/
inductive Content (α : Type) where
  | unparsable (message : String)
  | null
  | data (d : α)
  deriving DecidableEq

/-- What `await fetch(...)` gives: a rejection, or a response with its `ok`
flag and its body. -/
inductive Fetched (α : Type) where
  | rejected (message : String)
  | response (ok : Bool) (content : Content α)
  deriving DecidableEq

/-- One element of `data.wallets`. -/
structure Wallet where
  currency : JSVal
  balance : JSVal
  deriving DecidableEq

/-- One element of `data.transactions`. -/
structure Txn where
  user_id : JSVal
  from_ : JSVal
  to_ : JSVal
  prev_balance : JSVal
  debit : JSVal
  credit : JSVal
  new_balance : JSVal
  deriving DecidableEq

/-- The body of the balance endpoint: `wallets` is `none` when the member is
missing or null, and an element is `none` when it is null. -/
structure BalanceData where
  wallets : Option (List (Option Wallet))
  deriving DecidableEq

/-- The body of the transactions endpoint: `transactions` is `none` when the
member is missing or null, and an element is `none` when it is null. -/
structure TxnData where
  transactions : Option (List (Option Txn))
  deriving DecidableEq

/-- The body of the deposit and withdraw endpoints: each member is missing
(`none`) or any JSON value. -/
structure WriteData where
  detail : Option JSON
  new_balance : Option JSON

/-- The service as the client sees it in one run: the answer to each request. -/
structure Net where
  balance : JSNum → Fetched BalanceData
  transactions : JSNum → Fetched TxnData
  deposit : WriteBody → Fetched WriteData
  withdraw : WriteBody → Fetched WriteData

/-- The function `showToast(message, type)`: the text, the class, and one more
pending timer. -/
def showToast (message : String) (type : String) (p : Page) : Page :=
  { p with toastText := message, toastClass := "show " ++ type,
           toastTimers := p.toastTimers + 1 }

/-- The toast and the balance summary of a page: what a handler reports. -/
def Page.report (p : Page) : String × String × String × String × String × String :=
  (p.toastText, p.toastClass, p.summaryUser, p.balanceCurrency, p.balanceAmount, p.boxClass)

/-- ASCII whitespace, which a class token must not contain. -/
def asciiWhitespace : List Char :=
  [Char.ofNat 9, Char.ofNat 10, Char.ofNat 12, Char.ofNat 13, ' ']

/-- Whether `classList.add(token)` accepts the token (it is never empty here). -/
def validToken (token : String) : Bool :=
  token.toList.all fun c => !(asciiWhitespace.contains c)

/-- The function `renderSummary(userId, currency, balance)`. The user and the
currency texts are written first; `formatCurrency` then converts the balance
with `Number`, which throws for an object without a primitive value; the amount
text and the reset of the class are written before `classList.add` can throw. -/
def renderSummary (h : Host) (userId : JSNum) (currency : String) (balance : Option JSON)
    (p : Page) : Page × Except String Unit :=
  let p1 := { p with summaryUser := "User ID: " ++ numberText h userId,
                     balanceCurrency := "Available Balance (" ++ currency ++ ")" }
  match JSON.primitive h balance with
  | Except.error m => (p1, Except.error m)
  | Except.ok amount =>
    let p2 := { p1 with balanceAmount := formatCurrency h currency amount,
                        boxClass := "balance-box" }
    let token := "balance-" ++ currency
    if !validToken token then (p2, Except.error (h.invalidTokenMessage token))
    else if token = "balance-box" then (p2, Except.ok ())
    else ({ p2 with boxClass := "balance-box " ++ token }, Except.ok ())

/-! ## Transactions -/

/-- The markup of the placeholder row. -/
def placeholderRow : String := "<tr><td colspan=\"7\">No Transactions</td></tr>"

/-- The text of `value ?? "-"` inside the template. -/
def orDash (h : Host) : JSVal → String
  | .undefined => "-"
  | .null => "-"
  | v => toText h v

/-- The template literal of one row around its seven interpolated texts. -/
def rowTemplate (c0 c1 c2 c3 c4 c5 c6 : String) : String :=
  "\n            <tr>\n                <td><strong>" ++ c0 ++
  "</strong></td>\n                <td>" ++ c1 ++
  "</td>\n                <td>" ++ c2 ++
  "</td>\n                <td><strong>" ++ c3 ++
  "</strong></td>\n                <td>" ++ c4 ++
  "</td>\n                <td>" ++ c5 ++
  "</td>\n                <td><strong>" ++ c6 ++
  "</strong></td>\n            </tr>\n        "

/-- The seven interpolated texts of a row, in template order. -/
def txnCells (h : Host) (t : Txn) : List String :=
  [orDash h t.user_id, orDash h t.from_, orDash h t.to_,
   safeNumber h t.prev_balance, safeNumber h t.debit, safeNumber h t.credit,
   safeNumber h t.new_balance]

/-- The markup that one record adds to the table body. -/
def rowMarkup (h : Host) (t : Txn) : String :=
  rowTemplate (orDash h t.user_id) (orDash h t.from_) (orDash h t.to_)
    (safeNumber h t.prev_balance) (safeNumber h t.debit) (safeNumber h t.credit)
    (safeNumber h t.new_balance)

/-- The rows of a list of records, one after the other in the order of the
list. -/
def rowsMarkup (h : Host) : List Txn → String
  | [] => ""
  | t :: rest => rowMarkup h t ++ rowsMarkup h rest

/-- The row that the template of one record describes: whitespace, the row with
its seven cells (user_id, prev_balance and new_balance in `strong`), whitespace. -/
def recordRow (h : Host) (t : Txn) : List BodyItem :=
  [BodyItem.gap "\n            ",
   BodyItem.tr
     [RowItem.gap "\n                ", RowItem.td (Inline.strong (orDash h t.user_id)),
      RowItem.gap "\n                ", RowItem.td (Inline.text (orDash h t.from_)),
      RowItem.gap "\n                ", RowItem.td (Inline.text (orDash h t.to_)),
      RowItem.gap "\n                ", RowItem.td (Inline.strong (safeNumber h t.prev_balance)),
      RowItem.gap "\n                ", RowItem.td (Inline.text (safeNumber h t.debit)),
      RowItem.gap "\n                ", RowItem.td (Inline.text (safeNumber h t.credit)),
      RowItem.gap "\n                ", RowItem.td (Inline.strong (safeNumber h t.new_balance)),
      RowItem.gap "\n            "],
   BodyItem.gap "\n        "]

/-- The rows that the templates of a list of records describe, in order. -/
def tableOf (h : Host) : List Txn → List BodyItem
  | [] => []
  | t :: rest => recordRow h t ++ tableOf h rest

/-- The texts of the cells of a row, in order. -/
def rowCells : List RowItem → List String
  | [] => []
  | RowItem.gap _ :: rest => rowCells rest
  | RowItem.td c :: rest => c.shown :: rowCells rest

/-- The rows of a table body, each as the texts of its cells, in order. -/
def tableCells : List BodyItem → List (List String)
  | [] => []
  | BodyItem.gap _ :: rest => tableCells rest
  | BodyItem.tr items :: rest => rowCells items :: tableCells rest

/-- The label the claim expects in a cell: "-" for null and undefined, the text
of the value otherwise. -/
def expectedLabel (h : Host) (v : JSVal) : String :=
  if v = JSVal.undefined ∨ v = JSVal.null then "-" else toText h v

/-- The amount the claim expects in a cell: "0.00" for a value that converts to
0 or NaN, the locale format of its number otherwise. -/
def expectedAmount (h : Host) (v : JSVal) : String :=
  if toNumber h v = JSNum.nan ∨ toNumber h v = JSNum.fin 0 then "0.00"
  else h.toLocaleString (toNumber h v)

/-- The seven texts the claim expects in the row of a record, in its order. -/
def expectedCells (h : Host) (t : Txn) : List String :=
  [expectedLabel h t.user_id, expectedLabel h t.from_, expectedLabel h t.to_,
   expectedAmount h t.prev_balance, expectedAmount h t.debit, expectedAmount h t.credit,
   expectedAmount h t.new_balance]

/-- The loop `transactions.forEach(...)`: `tbody.innerHTML += row` reads the body
back and assigns it with the row appended; reading `txn.user_id` of a null
element throws and leaves the rows appended so far. -/
def appendRows (h : Host) : List (Option Txn) → Page → Page × Except String Unit
  | [], p => (p, Except.ok ())
  | none :: _, p => (p, Except.error (h.nullReadMessage JSVal.null "user_id"))
  | some t :: rest, p =>
    appendRows h rest { p with tbody := h.readBack p.tbody ++ rowMarkup h t }

/-- The function `renderTransactions(transactions)`. -/
def renderTransactions (h : Host) (transactions : Option (List (Option Txn)))
    (p : Page) : Page × Except String Unit :=
  let p0 := { p with tbody := "" }
  match transactions with
  | none => ({ p0 with tbody := placeholderRow }, Except.ok ())
  | some [] => ({ p0 with tbody := placeholderRow }, Except.ok ())
  | some (t :: rest) => appendRows h (t :: rest) p0

/-- The `catch` of `loadTransactions`: the error goes to the console. -/
def logError (message : String) (p : Page) : Page :=
  { p with console := p.console ++ ["Transaction Load Error: " ++ message] }

/-- The function `loadTransactions(userId)`; it has no failing completion. -/
def loadTransactions (h : Host) (net : Net) (userId : JSNum) (p : Page) : Page :=
  let p1 := { p with sent := p.sent ++ [Request.transactions userId] }
  match net.transactions userId with
  | Fetched.rejected m => logError m p1
  | Fetched.response _ (Content.unparsable m) => logError m p1
  | Fetched.response _ Content.null =>
    logError (h.nullReadMessage JSVal.null "transactions") p1
  | Fetched.response _ (Content.data d) =>
    match renderTransactions h d.transactions p1 with
    | (p2, Except.ok _) => p2
    | (p2, Except.error m) => logError m p2

/-! ## Balance -/

/-- The call `wallets.find(w => w.currency === currency)`; reading `currency`
of a null element throws. -/
def findWallet (h : Host) (currency : String) :
    List (Option Wallet) → Except String (Option Wallet)
  | [] => Except.ok none
  | none :: _ => Except.error (h.nullReadMessage JSVal.null "currency")
  | some w :: rest =>
    if w.currency = JSVal.str currency then Except.ok (some w)
    else findWallet h currency rest

/-- The function `fetchBalance(userId, currency)`. -/
def fetchBalance (h : Host) (net : Net) (userId : JSNum) (currency : String)
    (p : Page) : Page × Except String JSVal :=
  let p1 := { p with sent := p.sent ++ [Request.balance userId] }
  match net.balance userId with
  | Fetched.rejected m => (p1, Except.error m)
  | Fetched.response _ (Content.unparsable m) => (p1, Except.error m)
  | Fetched.response _ Content.null =>
    (p1, Except.error (h.nullReadMessage JSVal.null "wallets"))
  | Fetched.response _ (Content.data d) =>
    match d.wallets with
    | none => (p1, Except.error (h.nullReadMessage JSVal.undefined "find"))
    | some ws =>
      match findWallet h currency ws with
      | Except.error m => (p1, Except.error m)
      | Except.ok (some w) => (p1, Except.ok w.balance)
      | Except.ok none => (p1, Except.ok (JSVal.num (JSNum.fin 0)))

/-- The function `getBalance()`. -/
def getBalance (h : Host) (net : Net) (f : Fields) (p : Page) : Page :=
  match getValidatedInputs f false with
  | Except.error m => showToast m "error" p
  | Except.ok i =>
    match fetchBalance h net i.userId i.currency p with
    | (p1, Except.error m) => showToast m "error" p1
    | (p1, Except.ok balance) =>
      match renderSummary h i.userId i.currency balance.json p1 with
      | (p2, Except.error m) => showToast m "error" p2
      | (p2, Except.ok _) =>
        showToast "Balance Loaded" "success" (loadTransactions h net i.userId p2)

/-! ## Deposit and withdraw -/

/-- How `JSON.stringify` writes a Number. -/
def jsonNumber : JSNum → Option ℚ
  | JSNum.fin q => some q
  | _ => none

/-- The request body built from the validated inputs. -/
def writeBody (i : Inputs) : WriteBody :=
  ⟨jsonNumber i.userId, i.currency, jsonNumber i.amount⟩

/-- The message of the error that `throw new Error(data.detail || fallback)`
raises: the string form of a truthy `detail`, the fallback for a `detail` that
is missing or falsy, and the message of the TypeError when the `detail` has no
string form. -/
def failureMessage (h : Host) (detail : Option JSON) (fallback : String) : String :=
  match detail with
  | none => fallback
  | some d =>
    if JSON.truthy (some d) then
      match JSON.text h d with
      | Except.ok s => s
      | Except.error m => m
    else fallback

/-- The body that `deposit()` and `withdraw()` share; they differ in the
endpoint and in the two texts. -/
def transact (h : Host) (net : Net) (send : WriteBody → Fetched WriteData)
    (request : WriteBody → Request) (failed done : String) (f : Fields) (p : Page) : Page :=
  match getValidatedInputs f true with
  | Except.error m => showToast m "error" p
  | Except.ok i =>
    let p1 := { p with sent := p.sent ++ [request (writeBody i)] }
    match send (writeBody i) with
    | Fetched.rejected m => showToast m "error" p1
    | Fetched.response _ (Content.unparsable m) => showToast m "error" p1
    | Fetched.response ok Content.null =>
      showToast (h.nullReadMessage JSVal.null (if ok then "new_balance" else "detail"))
        "error" p1
    | Fetched.response ok (Content.data d) =>
      if !ok then showToast (failureMessage h d.detail failed) "error" p1
      else
        match renderSummary h i.userId i.currency d.new_balance p1 with
        | (p2, Except.error m) => showToast m "error" p2
        | (p2, Except.ok _) =>
          showToast done "success" (loadTransactions h net i.userId p2)

/-- The function `deposit()`. -/
def deposit (h : Host) (net : Net) (f : Fields) (p : Page) : Page :=
  transact h net net.deposit Request.deposit "Deposit Failed" "Deposit Successful" f p

/-- The function `withdraw()`. -/
def withdraw (h : Host) (net : Net) (f : Fields) (p : Page) : Page :=
  transact h net net.withdraw Request.withdraw "Withdrawal Failed" "Withdrawal Successful" f p

/-! ## The ledger service -/

namespace Ledger

/-- Modelled from the spec: the error kinds `InvalidInput` and
`InsufficientFunds` of section 7; the service is not among the sources. -/
inductive Failure where
  | InvalidInput
  | InsufficientFunds
  deriving DecidableEq

/-- Modelled from the spec: the TransactionRecord of section 3, amounts in
hundredths (fixed precision of two decimal places); the timestamp is left out.
The service is not among the sources. -/
structure TransactionRecord where
  user_id : Int
  currency : String
  from_ : String
  to_ : String
  prev_balance : Int
  debit : Int
  credit : Int
  new_balance : Int
  sequence : Nat
  deriving DecidableEq

/-- Modelled from the spec: the WalletStore (balance per user and currency, 0
for a wallet never created) and the append-only LedgerLog in insertion order;
the service is not among the sources. -/
structure State where
  balance : Int → String → Int
  log : List TransactionRecord

/-- Modelled from the spec: the state before any operation; the service is not
among the sources. -/
def State.empty : State := ⟨fun _ _ => 0, []⟩

/-- Modelled from the spec: `WalletStore.get` of section 4.1; the service is
not among the sources. -/
def get (s : State) (user_id : Int) (currency : String) : Int :=
  s.balance user_id currency

/-- Modelled from the spec: `WalletStore.applyDelta` of section 4.1, which
fails with `InsufficientFunds` and changes nothing when the result would be
negative; the service is not among the sources. -/
def applyDelta (s : State) (user_id : Int) (currency : String) (delta : Int) :
    Except Failure (State × Int) :=
  let result := get s user_id currency + delta
  if result < 0 then Except.error Failure.InsufficientFunds
  else
    Except.ok
      ({ s with balance := fun u c =>
          if u = user_id ∧ c = currency then result else s.balance u c }, result)

/-- Modelled from the spec: the records of one wallet, oldest first; the
service is not among the sources. -/
def history (s : State) (user_id : Int) (currency : String) : List TransactionRecord :=
  s.log.filter fun r => decide (r.user_id = user_id ∧ r.currency = currency)

/-- Modelled from the spec: `LedgerLog.append` of section 4.2, which gives the
record the wallet's next sequence number; the service is not among the
sources. -/
def append (s : State) (r : TransactionRecord) : State :=
  { s with log := s.log ++
      [{ r with sequence := (history s r.user_id r.currency).length + 1 }] }

/-- Modelled from the spec: `deposit` of section 4.3, steps 1 to 7 without the
lock; the service is not among the sources. -/
def deposit (s : State) (user_id : Int) (currency : String) (amount : Int) :
    Except Failure (State × Int) :=
  if user_id < 1 ∨ amount ≤ 0 then Except.error Failure.InvalidInput
  else
    let prev_balance := get s user_id currency
    let new_balance := prev_balance + amount
    match applyDelta s user_id currency amount with
    | Except.error e => Except.error e
    | Except.ok (s1, _) =>
      Except.ok
        (append s1 ⟨user_id, currency, "external", "wallet", prev_balance, 0, amount,
          new_balance, 0⟩, new_balance)

/-- Modelled from the spec: `withdraw` of section 4.3, the same flow with the
delta negated and the labels swapped; the service is not among the sources. -/
def withdraw (s : State) (user_id : Int) (currency : String) (amount : Int) :
    Except Failure (State × Int) :=
  if user_id < 1 ∨ amount ≤ 0 then Except.error Failure.InvalidInput
  else
    let prev_balance := get s user_id currency
    let new_balance := prev_balance - amount
    match applyDelta s user_id currency (-amount) with
    | Except.error e => Except.error e
    | Except.ok (s1, _) =>
      Except.ok
        (append s1 ⟨user_id, currency, "wallet", "external", prev_balance, amount, 0,
          new_balance, 0⟩, new_balance)

/-- Modelled from the spec: one call of the TransactionEngine; the service is
not among the sources. -/
inductive Call where
  | deposit (user_id : Int) (currency : String) (amount : Int)
  | withdraw (user_id : Int) (currency : String) (amount : Int)
  deriving DecidableEq

/-- Modelled from the spec: a call either commits or fails and leaves the state
as it was (section 4.3); the service is not among the sources. -/
def step (s : State) : Call → State
  | Call.deposit u c a =>
    match deposit s u c a with
    | Except.ok (s1, _) => s1
    | Except.error _ => s
  | Call.withdraw u c a =>
    match withdraw s u c a with
    | Except.ok (s1, _) => s1
    | Except.error _ => s

/-- Modelled from the spec: a sequence of calls applied in order from the empty
state; the service is not among the sources. -/
def run (calls : List Call) : State := calls.foldl step State.empty

/-- The sum of the credits minus the sum of the debits of some records. -/
def net (records : List TransactionRecord) : Int :=
  (records.map fun r => r.credit).sum - (records.map fun r => r.debit).sum

/-- The three facts of the ledger, for every wallet. -/
def Sound (s : State) : Prop :=
  ∀ u c, s.balance u c = net (history s u c) ∧ 0 ≤ s.balance u c ∧
    ∀ r, (history s u c).getLast? = some r → r.new_balance = s.balance u c

end Ledger

/-! ## A host for the examples -/

/-- The digits of a whole number without its trailing zeros. -/
def significand (n : Nat) : List Char :=
  ((decimal n).reverse.dropWhile fun c => c == '0').reverse

/-- Exponent form of a whole number: first digit, the further significant
digits after a point, then `e+` and the exponent. -/
def exponentText (n : Nat) : String :=
  String.mk
    ((match significand n with
      | [] => ['0']
      | [d] => [d]
      | d :: rest => d :: '.' :: rest) ++
     ['e', '+'] ++ decimal ((decimal n).length - 1))

/-- A Number::toString for the examples: whole numbers in full below 10^21 and
in exponent form from there on, other values to two places. -/
def sampleNumberToString (q : ℚ) : String :=
  (if q < 0 then "-" else "") ++
    (if (10 : ℚ) ^ 21 ≤ |q| then exponentText ⌊|q|⌋.toNat
     else if |q|.den = 1 then String.mk (decimal ⌊|q|⌋.toNat)
     else String.mk (fixedDigits (nearestHundredth |q|)))

/-- A StringToNumber for the examples: the empty text is 0, a run of digits is
its value, anything else reads as NaN. -/
def sampleStringToNumber (s : String) : JSNum :=
  if s = "" then JSNum.fin 0
  else if s.toList.all Char.isDigit then
    JSNum.fin (s.toList.foldl (fun n c => 10 * n + (c.toNat - 48)) 0 : Nat)
  else JSNum.nan

/-- A locale format for the examples: two places, no grouping. -/
def sampleLocale : JSNum → String
  | JSNum.nan => "NaN"
  | JSNum.negInf => "-∞"
  | JSNum.posInf => "∞"
  | JSNum.fin q =>
    (if q < 0 then "-" else "") ++ String.mk (fixedDigits (nearestHundredth |q|))

/-- A host for the examples, with the message texts of one engine. Its table
body reads back as it was assigned, which is what a browser gives for rows whose
texts are plain, as the texts of the examples are. -/
def sampleHost : Host where
  stringToNumber := sampleStringToNumber
  numberToString := sampleNumberToString
  toLocaleString := sampleLocale
  nativeSource := fun name => "function " ++ name ++ "() \x7b [native code] \x7d"
  nullReadMessage := fun v name =>
    "Cannot read properties of " ++ (if v = JSVal.null then "null" else "undefined") ++
      " (reading " ++ name ++ ")"
  invalidTokenMessage := fun token =>
    "The token provided (" ++ token ++ ") contains HTML space characters"
  notPrimitiveMessage := "Cannot convert object to primitive value"
  readBack := fun markup => markup
  exponent_form := by
    intro q hq
    have h0 : ¬ q < 0 := not_lt.mpr (le_trans (by positivity) hq)
    have h1 : (10 : ℚ) ^ 21 ≤ |q| := le_trans hq (le_abs_self q)
    simp [sampleNumberToString, h0, h1, exponentText]
  readBack_rows := by
    intro body hbody
    have rowRefl : ∀ items : List RowItem, items.all RowItem.wellFormed = true →
        List.Forall₂ RowItem.kept items items := by
      intro items
      induction items with
      | nil => intro _; exact List.Forall₂.nil
      | cons x xs ihx =>
        intro hi
        simp only [List.all_cons, Bool.and_eq_true] at hi
        refine List.Forall₂.cons ?_ (ihx hi.2)
        cases x with
        | gap s => rfl
        | td c =>
          have hc := hi.1
          cases c with
          | text t => exact ⟨hc, fun _ => rfl⟩
          | strong t => exact ⟨hc, fun _ => rfl⟩
    refine ⟨body, ?_, rfl⟩
    induction body with
    | nil => exact List.Forall₂.nil
    | cons item rest ih =>
      simp only [List.all_cons, Bool.and_eq_true] at hbody
      refine List.Forall₂.cons ?_ (ih hbody.2)
      cases item with
      | gap s => rfl
      | tr items => exact rowRefl items hbody.1

/-- A page on which nothing has been written yet. -/
def Page.blank : Page := ⟨"", "", 0, "", "", "", "balance-box", "", [], []⟩

/-- A service that cannot be reached: every `fetch` rejects. -/
def Net.down : Net :=
  ⟨fun _ => Fetched.rejected "Failed to fetch", fun _ => Fetched.rejected "Failed to fetch",
   fun _ => Fetched.rejected "Failed to fetch", fun _ => Fetched.rejected "Failed to fetch"⟩

/-- Two wallets for the examples. -/
def sampleWallets : List Wallet :=
  [⟨JSVal.str "USD", JSVal.num (JSNum.fin 5)⟩, ⟨JSVal.str "EUR", JSVal.num (JSNum.fin 7)⟩]

/-- Two records for the examples: a deposit of 100 and a withdrawal of 30. -/
def sampleTxns : List Txn :=
  [⟨JSVal.num (JSNum.fin 1), JSVal.str "external", JSVal.str "wallet", JSVal.num (JSNum.fin 0),
      JSVal.num (JSNum.fin 0), JSVal.num (JSNum.fin 100), JSVal.num (JSNum.fin 100)⟩,
   ⟨JSVal.num (JSNum.fin 1), JSVal.str "wallet", JSVal.str "external", JSVal.num (JSNum.fin 100),
      JSVal.num (JSNum.fin 30), JSVal.num (JSNum.fin 0), JSVal.num (JSNum.fin 70)⟩]

/-- A service that answers every request with success. -/
def Net.serving : Net :=
  ⟨fun _ => Fetched.response true (Content.data ⟨some (sampleWallets.map some)⟩),
   fun _ => Fetched.response true (Content.data ⟨some (sampleTxns.map some)⟩),
   fun _ => Fetched.response true (Content.data ⟨none, some (JSON.num (JSNum.fin 100))⟩),
   fun _ => Fetched.response true (Content.data ⟨none, some (JSON.num (JSNum.fin 70))⟩)⟩

/-- A record whose `from` label carries markup of its own. -/
def taggedTxn : Txn :=
  ⟨JSVal.num (JSNum.fin 1), JSVal.str "</td><td>", JSVal.str "wallet", JSVal.num (JSNum.fin 0),
    JSVal.num (JSNum.fin 0), JSVal.num (JSNum.fin 100), JSVal.num (JSNum.fin 100)⟩

/-- The same service with other answers to the history request. -/
def Net.withHistory (net : Net) (answers : JSNum → Fetched TxnData) : Net :=
  ⟨net.balance, answers, net.deposit, net.withdraw⟩

/-- A service that refuses every write with a list of validation errors as its
`detail`. -/
def Net.unprocessable : Net :=
  ⟨Net.serving.balance, Net.serving.transactions,
   fun _ => Fetched.response false (Content.data
     ⟨some (JSON.arr [JSON.obj [("loc", JSON.arr [JSON.str "body", JSON.str "amount"]),
        ("msg", JSON.str "field required")]]), none⟩),
   fun _ => Fetched.response false (Content.data
     ⟨some (JSON.arr [JSON.obj [("loc", JSON.arr [JSON.str "body", JSON.str "amount"]),
        ("msg", JSON.str "field required")]]), none⟩)⟩

/-- A service whose write endpoints fail with a body that is not JSON. -/
def Net.broken : Net :=
  ⟨Net.serving.balance, Net.serving.transactions,
   fun _ => Fetched.response false (Content.unparsable "Unexpected token I in JSON at position 0"),
   fun _ => Fetched.response false (Content.unparsable "Unexpected token I in JSON at position 0")⟩

/-- A service that refuses every write with a `detail`. -/
def Net.refusing : Net :=
  ⟨Net.serving.balance, Net.serving.transactions,
   fun _ => Fetched.response false (Content.data ⟨some (JSON.str "Insufficient funds"), none⟩),
   fun _ => Fetched.response false (Content.data ⟨some (JSON.str "Insufficient funds"), none⟩)⟩

/-- A service that accepts writes but whose history cannot be loaded. -/
def Net.noHistory : Net :=
  ⟨Net.serving.balance, fun _ => Fetched.rejected "Failed to fetch",
   Net.serving.deposit, Net.serving.withdraw⟩

/-- A valid form: user 1, 5 US dollars. -/
def sampleFields : Fields := ⟨JSNum.fin 1, "USD", JSNum.fin 5⟩

/-- A form whose currency text contains a space. -/
def spacedFields : Fields := ⟨JSNum.fin 1, "U S", JSNum.fin 5⟩

/-! ## Reading the table markup -/

/-- Whether the text after a `<` opens an element of this name: the name, then
`>` or a space. -/
def opensTag (name : List Char) (rest : List Char) : Bool :=
  (name ++ ['>']).isPrefixOf rest || (name ++ [' ']).isPrefixOf rest

/-- The number of start tags of one element name in a markup text, which is the
number of such elements the table holds. -/
def startTags (name : List Char) : List Char → Nat
  | [] => 0
  | c :: rest => (if c = '<' ∧ opensTag name rest = true then 1 else 0) + startTags name rest

/-- Whether every `<` of a text has its whole tag name inside the text, so that
what follows the text cannot change which tags it opens. -/
def selfContained (name : List Char) : List Char → Bool
  | [] => true
  | c :: rest => (c != '<' || decide (name.length + 1 ≤ rest.length)) && selfContained name rest

/-- The rows of a table body markup. -/
def rowCount (markup : String) : Nat := startTags ['t', 'r'] markup.toList

/-- The cells of a table body markup. -/
def cellCount (markup : String) : Nat := startTags ['t', 'd'] markup.toList

/-! ## Two decimal places -/

/-- An amount written with exactly two decimal places: sign, whole part, point,
and the two digits of the nearest hundredth. -/
def twoPlaces (q : ℚ) : String :=
  (if q < 0 then "-" else "") ++
    String.mk (decimal (nearestHundredth |q| / 100) ++
      ['.', Nat.digitChar (nearestHundredth |q| / 10 % 10),
        Nat.digitChar (nearestHundredth |q| % 10)])

/-- The symbol the claim expects: the table entry of a listed code, the code and
one space otherwise. -/
def listedSymbol (currency : String) : String :=
  match symbolTable.lookup currency with
  | some s => s
  | none => currency ++ " "

/-! ## Theorems -/

/-! ### Validation -/

theorem JSNum.rejected_id_iff (x : JSNum) :
    (!x.truthy || x.lt (JSNum.fin 1)) = !x.ge (JSNum.fin 1) := by
  cases x with
  | fin q =>
    by_cases h : 1 ≤ q
    · have h0 : q ≠ 0 := by intro h0; rw [h0] at h; exact absurd h (by norm_num)
      simp [JSNum.truthy, JSNum.lt, JSNum.ge, JSNum.le, h, h0, not_lt.mpr h]
    · simp [JSNum.truthy, JSNum.lt, JSNum.ge, JSNum.le, h, lt_of_not_le h]
  | _ => simp [JSNum.truthy, JSNum.lt, JSNum.ge, JSNum.le]

theorem JSNum.rejected_amount_iff (x : JSNum) :
    (!x.truthy || x.le (JSNum.fin 0)) = !x.gt (JSNum.fin 0) := by
  cases x with
  | fin q =>
    by_cases h : 0 < q
    · simp [JSNum.truthy, JSNum.lt, JSNum.gt, JSNum.le, h, ne_of_gt h, not_le.mpr h]
    · simp [JSNum.truthy, JSNum.lt, JSNum.gt, JSNum.le, h, le_of_not_lt h]
  | _ => simp [JSNum.truthy, JSNum.lt, JSNum.gt, JSNum.le]

theorem JSNum.ge_false_of_lt (x y : JSNum) (h : x.lt y = true) : x.ge y = false := by
  cases x <;> cases y <;> simp_all [JSNum.lt, JSNum.ge, JSNum.le]

theorem JSNum.gt_false_of_le (x y : JSNum) (h : x.le y = true) : x.gt y = false := by
  cases x <;> cases y <;> simp_all [JSNum.lt, JSNum.gt, JSNum.le]

/-- The two guards of `getValidatedInputs`, read as the comparisons they stand
for. -/
theorem getValidatedInputs_eq (f : Fields) (requireAmount : Bool) :
    getValidatedInputs f requireAmount =
      if f.userId.ge (JSNum.fin 1) = true then
        if requireAmount = false ∨ f.amount.gt (JSNum.fin 0) = true then
          Except.ok ⟨f.userId, f.currency, f.amount⟩
        else Except.error "Invalid Amount"
      else Except.error "Invalid User ID" := by
  unfold getValidatedInputs
  rw [JSNum.rejected_id_iff, JSNum.rejected_amount_iff]
  cases f.userId.ge (JSNum.fin 1) <;> cases requireAmount <;>
    cases f.amount.gt (JSNum.fin 0) <;> simp

/-- C1: `getValidatedInputs(requireAmount)` returns exactly when the numeric user
id is `>= 1` and (`requireAmount` is false or the numeric amount is `> 0`), NaN
passing neither comparison; otherwise it throws; and what it returns is the
user id, currency and amount that were read, unchanged. -/
theorem getValidatedInputs_returns_iff (f : Fields) (requireAmount : Bool) :
    ((∃ r, getValidatedInputs f requireAmount = Except.ok r) ↔
      (f.userId.ge (JSNum.fin 1) = true ∧
        (requireAmount = false ∨ f.amount.gt (JSNum.fin 0) = true))) ∧
    ((∃ m, getValidatedInputs f requireAmount = Except.error m) ↔
      ¬ (f.userId.ge (JSNum.fin 1) = true ∧
        (requireAmount = false ∨ f.amount.gt (JSNum.fin 0) = true))) ∧
    (getValidatedInputs f requireAmount =
      if f.userId.ge (JSNum.fin 1) = true ∧
          (requireAmount = false ∨ f.amount.gt (JSNum.fin 0) = true) then
        Except.ok ⟨f.userId, f.currency, f.amount⟩
      else if f.userId.ge (JSNum.fin 1) = true then Except.error "Invalid Amount"
      else Except.error "Invalid User ID") ∧
    JSNum.nan.ge (JSNum.fin 1) = false ∧ JSNum.nan.gt (JSNum.fin 0) = false := by
  rw [getValidatedInputs_eq]
  refine ⟨?_, ?_, ?_, rfl, rfl⟩ <;>
    by_cases hu : f.userId.ge (JSNum.fin 1) = true <;>
    by_cases ha : (requireAmount = false ∨ f.amount.gt (JSNum.fin 0) = true) <;>
    simp [hu, ha]

theorem getValidatedInputs_rejects (f : Fields)
    (hbad : f.userId.lt (JSNum.fin 1) = true ∨ f.userId = JSNum.nan ∨
      f.amount.le (JSNum.fin 0) = true ∨ f.amount = JSNum.nan) :
    getValidatedInputs f true = Except.error "Invalid User ID" ∨
      getValidatedInputs f true = Except.error "Invalid Amount" := by
  rw [getValidatedInputs_eq]
  by_cases hu : f.userId.ge (JSNum.fin 1) = true
  · right
    have ha : f.amount.gt (JSNum.fin 0) = false := by
      rcases hbad with h | h | h | h
      · rw [JSNum.ge_false_of_lt _ _ h] at hu; exact absurd hu (by simp)
      · rw [h] at hu; exact absurd hu (by simp [JSNum.ge, JSNum.le])
      · exact JSNum.gt_false_of_le _ _ h
      · rw [h]; simp [JSNum.gt, JSNum.lt]
    simp [hu, ha]
  · left
    simp [hu]

/-- C2: with a user id `< 1` or NaN, or an amount `<= 0` or NaN, `deposit()` and
`withdraw()` send no request, leave the balance summary and the transactions
table as they were, and end with an error toast whose message is
"Invalid User ID" or "Invalid Amount". -/
theorem invalid_input_sends_nothing (h : Host) (net : Net) (f : Fields) (p : Page)
    (hbad : f.userId.lt (JSNum.fin 1) = true ∨ f.userId = JSNum.nan ∨
      f.amount.le (JSNum.fin 0) = true ∨ f.amount = JSNum.nan) :
    ∃ m, (m = "Invalid User ID" ∨ m = "Invalid Amount") ∧
      deposit h net f p = showToast m "error" p ∧
      withdraw h net f p = showToast m "error" p ∧
      (deposit h net f p).sent = p.sent ∧ (withdraw h net f p).sent = p.sent ∧
      (deposit h net f p).summaryUser = p.summaryUser ∧
      (deposit h net f p).balanceCurrency = p.balanceCurrency ∧
      (deposit h net f p).balanceAmount = p.balanceAmount ∧
      (deposit h net f p).boxClass = p.boxClass ∧
      (deposit h net f p).tbody = p.tbody ∧
      (withdraw h net f p).summaryUser = p.summaryUser ∧
      (withdraw h net f p).balanceCurrency = p.balanceCurrency ∧
      (withdraw h net f p).balanceAmount = p.balanceAmount ∧
      (withdraw h net f p).boxClass = p.boxClass ∧
      (withdraw h net f p).tbody = p.tbody ∧
      (deposit h net f p).toastText = m ∧ (deposit h net f p).toastClass = "show error" ∧
      (withdraw h net f p).toastText = m ∧ (withdraw h net f p).toastClass = "show error" := by
  rcases getValidatedInputs_rejects f hbad with hm | hm
  · refine ⟨"Invalid User ID", Or.inl rfl, ?_⟩
    simp [deposit, withdraw, transact, hm, showToast]
  · refine ⟨"Invalid Amount", Or.inr rfl, ?_⟩
    simp [deposit, withdraw, transact, hm, showToast]

/-- C2 at a concrete input: user id 0 on a service that is down. -/
theorem invalid_input_sends_nothing_witness :
    (JSNum.fin 0).lt (JSNum.fin 1) = true ∧
    ∃ m, (m = "Invalid User ID" ∨ m = "Invalid Amount") ∧
      deposit sampleHost Net.down ⟨JSNum.fin 0, "USD", JSNum.fin 5⟩ Page.blank =
        showToast m "error" Page.blank :=
  ⟨by decide!,
   (invalid_input_sends_nothing sampleHost Net.down ⟨JSNum.fin 0, "USD", JSNum.fin 5⟩
      Page.blank (Or.inl (by decide!))).imp fun _ hm => ⟨hm.1, hm.2.1⟩⟩

/-! ### What a handler leaves alone -/

@[simp] theorem showToast_sent (m t : String) (p : Page) : (showToast m t p).sent = p.sent := rfl

theorem renderSummary_sent (h : Host) (u : JSNum) (c : String) (b : Option JSON) (p : Page) :
    (renderSummary h u c b p).1.sent = p.sent := by
  unfold renderSummary
  simp only []
  split
  · rfl
  · split_ifs <;> rfl

theorem appendRows_sent (h : Host) (ts : List (Option Txn)) (p : Page) :
    (appendRows h ts p).1.sent = p.sent := by
  induction ts generalizing p with
  | nil => rfl
  | cons t rest ih =>
    cases t with
    | none => rfl
    | some t => simp only [appendRows]; rw [ih]

theorem renderTransactions_sent (h : Host) (ts : Option (List (Option Txn))) (p : Page) :
    (renderTransactions h ts p).1.sent = p.sent := by
  unfold renderTransactions
  rcases ts with _ | _ | ⟨t, rest⟩
  · rfl
  · rfl
  · simp only []; rw [appendRows_sent]

theorem loadTransactions_sent (h : Host) (net : Net) (u : JSNum) (p : Page) :
    (loadTransactions h net u p).sent = p.sent ++ [Request.transactions u] := by
  unfold loadTransactions
  simp only []
  split
  · rfl
  · rfl
  · rfl
  · next d _ =>
    have := renderTransactions_sent h d.transactions
      { p with sent := p.sent ++ [Request.transactions u] }
    split
    · next p2 _ heq => rw [heq] at this; exact this
    · next p2 m heq => rw [heq] at this; simpa [logError] using this

theorem transact_sent (h : Host) (net : Net) (send : WriteBody → Fetched WriteData)
    (request : WriteBody → Request) (failed done : String) (f : Fields) (p : Page) (r : Inputs)
    (hr : getValidatedInputs f true = Except.ok r) :
    ∃ rest, (transact h net send request failed done f p).sent =
      p.sent ++ request ⟨jsonNumber r.userId, r.currency, jsonNumber r.amount⟩ :: rest := by
  unfold transact
  rw [hr]
  simp only [writeBody]
  split
  · exact ⟨[], rfl⟩
  · exact ⟨[], rfl⟩
  · exact ⟨[], rfl⟩
  · split
    · exact ⟨[], rfl⟩
    · have hs := renderSummary_sent h r.userId r.currency
        (by assumption : WriteData).new_balance
        { p with sent := p.sent ++ [request ⟨jsonNumber r.userId, r.currency, jsonNumber r.amount⟩] }
      split
      · next p2 m heq => rw [heq] at hs; exact ⟨[], by simpa using hs⟩
      · next p2 _ heq =>
        rw [heq] at hs
        refine ⟨[Request.transactions r.userId], ?_⟩
        simp only [showToast_sent, loadTransactions_sent]
        simp at hs
        rw [hs]; simp

/-! ### The user id that is sent -/

/-- C7, as amended: a user id that `getValidatedInputs` accepts is the Number
that was read and is at least 1, so finite and `>= 1` or Infinity; it need not
be whole. `deposit()` and `withdraw()` send it as `user_id` the way
`JSON.stringify` writes it: unchanged when finite, `null` for Infinity. -/
theorem accepted_userId_at_least_one (h : Host) (net : Net) (f : Fields) (p : Page)
    (requireAmount : Bool) (r : Inputs)
    (hr : getValidatedInputs f requireAmount = Except.ok r) :
    r.userId = f.userId ∧ r.userId.ge (JSNum.fin 1) = true ∧
    (r.userId = JSNum.posInf ∨ ∃ q : ℚ, 1 ≤ q ∧ r.userId = JSNum.fin q) ∧
    (requireAmount = true →
      (∃ rest, (deposit h net f p).sent =
        p.sent ++ Request.deposit ⟨jsonNumber r.userId, r.currency, jsonNumber r.amount⟩ :: rest) ∧
      (∃ rest, (withdraw h net f p).sent =
        p.sent ++ Request.withdraw ⟨jsonNumber r.userId, r.currency, jsonNumber r.amount⟩ :: rest)) := by
  have hr0 := hr
  rw [getValidatedInputs_eq] at hr
  by_cases hu : f.userId.ge (JSNum.fin 1) = true
  · rw [if_pos hu] at hr
    split_ifs at hr with ha
    · have hru : r.userId = f.userId := by cases hr; rfl
      refine ⟨hru, by rw [hru]; exact hu, ?_, ?_⟩
      · rw [hru]
        cases hx : f.userId with
        | posInf => exact Or.inl rfl
        | fin q =>
          right
          refine ⟨q, ?_, rfl⟩
          rw [hx] at hu
          simpa [JSNum.ge, JSNum.le] using hu
        | nan => rw [hx] at hu; simp [JSNum.ge, JSNum.le] at hu
        | negInf => rw [hx] at hu; simp [JSNum.ge, JSNum.le] at hu
      · intro hra
        subst hra
        exact ⟨transact_sent h net _ _ _ _ f p r hr0, transact_sent h net _ _ _ _ f p r hr0⟩
  · rw [if_neg hu] at hr
    cases hr

/-- C7 as amended, at the user id 1.5. -/
theorem accepted_userId_at_least_one_witness :
    getValidatedInputs ⟨JSNum.fin (3 / 2), "USD", JSNum.fin 10⟩ true =
      Except.ok ⟨JSNum.fin (3 / 2), "USD", JSNum.fin 10⟩ ∧
    (JSNum.fin (3 / 2)).ge (JSNum.fin 1) = true :=
  ⟨by decide!,
   (accepted_userId_at_least_one sampleHost Net.down ⟨JSNum.fin (3 / 2), "USD", JSNum.fin 10⟩
      Page.blank true ⟨JSNum.fin (3 / 2), "USD", JSNum.fin 10⟩ (by decide!)).2.1⟩

/-- C7 as stated fails: the user id 1.5 is accepted, is not a positive integer,
and is what `deposit()` and `withdraw()` send as `user_id`. -/
theorem fractional_userId_accepted :
    getValidatedInputs ⟨JSNum.fin (3 / 2), "USD", JSNum.fin 10⟩ true =
      Except.ok ⟨JSNum.fin (3 / 2), "USD", JSNum.fin 10⟩ ∧
    (JSNum.fin (3 / 2)).isPositiveInteger = false ∧
    (deposit sampleHost Net.down ⟨JSNum.fin (3 / 2), "USD", JSNum.fin 10⟩ Page.blank).sent =
      [Request.deposit ⟨some (3 / 2), "USD", some 10⟩] ∧
    (withdraw sampleHost Net.down ⟨JSNum.fin (3 / 2), "USD", JSNum.fin 10⟩ Page.blank).sent =
      [Request.withdraw ⟨some (3 / 2), "USD", some 10⟩] := by
  decide!


/-! ### The ledger service -/

namespace Ledger

theorem sound_empty : Sound State.empty := by
  intro u c
  simp [State.empty, history, net]

theorem net_append_one (rs : List TransactionRecord) (r : TransactionRecord) :
    net (rs ++ [r]) = net rs + r.credit - r.debit := by
  simp [net]; ring

/-- A committed movement of `delta` on one wallet keeps the ledger sound. -/
theorem sound_commit (s : State) (hs : Sound s) (u : Int) (c : String) (lbl1 lbl2 : String)
    (debit credit : Int) (hnn : 0 ≤ s.balance u c + credit - debit) :
    Sound (append { s with balance := fun u1 c1 =>
        if u1 = u ∧ c1 = c then s.balance u c + credit - debit else s.balance u1 c1 }
      ⟨u, c, lbl1, lbl2, s.balance u c, debit, credit, s.balance u c + credit - debit, 0⟩) := by
  intro u1 c1
  by_cases hk : u1 = u ∧ c1 = c
  · obtain ⟨rfl, rfl⟩ := hk
    have hk' : (u1 = u1 ∧ c1 = c1) := ⟨rfl, rfl⟩
    simp only [append, history, List.filter_append, List.filter_cons, List.filter_nil,
      and_self, decide_True, if_true, net_append_one, List.getLast?_append, List.getLast?_singleton]
    refine ⟨?_, hnn, ?_⟩
    · have := (hs u1 c1).1
      simp only [history] at this
      rw [← this]
    · intro r hr
      simp at hr
      rw [← hr]
  · have hk2 : ¬ (u = u1 ∧ c = c1) := fun h => hk ⟨h.1.symm, h.2.symm⟩
    simp only [append, history, List.filter_append, List.filter_cons, List.filter_nil, hk, hk2,
      decide_False, if_false, List.append_nil, Bool.false_eq_true]
    exact hs u1 c1

theorem sound_step (s : State) (hs : Sound s) (call : Call) : Sound (step s call) := by
  cases call with
  | deposit u c a =>
    simp only [step, deposit, applyDelta, get]
    split_ifs with h1 h2
    · exact hs
    · exact hs
    · have := sound_commit s hs u c "external" "wallet" 0 a (by simp; omega)
      simpa using this
  | withdraw u c a =>
    simp only [step, withdraw, applyDelta, get]
    split_ifs with h1 h2
    · exact hs
    · exact hs
    · have := sound_commit s hs u c "wallet" "external" a 0 (by simp; omega)
      simpa [sub_eq_add_neg] using this

theorem sound_foldl (calls : List Call) (s : State) (hs : Sound s) :
    Sound (calls.foldl step s) := by
  induction calls generalizing s with
  | nil => exact hs
  | cons call rest ih => exact ih _ (sound_step s hs call)

theorem sound_run (calls : List Call) : Sound (run calls) :=
  sound_foldl calls _ sound_empty


/-- C8: for every sequence of deposits and withdrawals, the balance of a wallet
is the sum of the credits minus the sum of the debits of its records, is the
`new_balance` of the last record appended for it, and is not negative after any
operation of the sequence. -/
theorem balance_is_sum_of_movements (calls : List Call) (user_id : Int) (currency : String) :
    (run calls).balance user_id currency = net (history (run calls) user_id currency) ∧
    (∀ r, (history (run calls) user_id currency).getLast? = some r →
      r.new_balance = (run calls).balance user_id currency) ∧
    (∀ n, 0 ≤ (run (calls.take n)).balance user_id currency) :=
  ⟨(sound_run calls user_id currency).1, (sound_run calls user_id currency).2.2,
   fun n => (sound_run (calls.take n) user_id currency).2.1⟩

/-- The scenario of section 8: deposit 100.00, withdraw 30.00, then a withdrawal
of 1000.00 that fails and changes nothing. -/
theorem scenario_of_section_8 :
    (run [Call.deposit 1 "USD" 10000, Call.withdraw 1 "USD" 3000]).balance 1 "USD" = 7000 ∧
    (run [Call.deposit 1 "USD" 10000, Call.withdraw 1 "USD" 3000,
      Call.withdraw 1 "USD" 100000]).balance 1 "USD" = 7000 ∧
    (history (run [Call.deposit 1 "USD" 10000, Call.withdraw 1 "USD" 3000,
      Call.withdraw 1 "USD" 100000]) 1 "USD").map (fun r => (r.prev_balance, r.debit, r.credit,
        r.new_balance, r.sequence)) = [(0, 0, 10000, 10000, 1), (10000, 3000, 0, 7000, 2)] := by
  decide

end Ledger

/-! ### Two decimal places -/

theorem decimalAux_fuel (n : Nat) : ∀ f g, n < f → n < g → decimalAux f n = decimalAux g n := by
  induction n using Nat.strong_induction_on with
  | _ n ih =>
    intro f g hf hg
    obtain ⟨f, rfl⟩ : ∃ k, f = k + 1 := ⟨f - 1, by omega⟩
    obtain ⟨g, rfl⟩ : ∃ k, g = k + 1 := ⟨g - 1, by omega⟩
    simp only [decimalAux]
    split_ifs with h
    · rfl
    · rw [ih (n / 10) (by omega) f g (by omega) (by omega)]

theorem decimal_small (n : Nat) (h : n < 10) : decimal n = [Nat.digitChar n] := by
  simp [decimal, decimalAux, h]

theorem decimal_large (n : Nat) (h : 10 ≤ n) :
    decimal n = decimal (n / 10) ++ [Nat.digitChar (n % 10)] := by
  have h' : ¬ n < 10 := by omega
  show decimalAux (n + 1) n = decimalAux (n / 10 + 1) (n / 10) ++ _
  rw [decimalAux, if_neg h', decimalAux_fuel (n / 10) n (n / 10 + 1) (by omega) (by omega)]

theorem decimal_length_pos (n : Nat) : 0 < (decimal n).length := by
  by_cases h : n < 10
  · simp [decimal_small n h]
  · simp [decimal_large n (by omega)]

theorem fixedDigits_eq (n : Nat) :
    fixedDigits n =
      decimal (n / 100) ++ ['.', Nat.digitChar (n / 10 % 10), Nat.digitChar (n % 10)] := by
  have d0 : Nat.digitChar 0 = '0' := rfl
  unfold fixedDigits
  by_cases h1 : n < 10
  · have e0 : n / 100 = 0 := by omega
    have e1 : n / 10 % 10 = 0 := by omega
    have e2 : n % 10 = n := by omega
    simp [decimal_small n h1, e0, e1, e2, decimal_small 0, d0]
  · by_cases h2 : n < 100
    · have e0 : n / 100 = 0 := by omega
      have e1 : n / 10 % 10 = n / 10 := by omega
      rw [decimal_large n (by omega), decimal_small (n / 10) (by omega)]
      simp [e0, e1, decimal_small 0, d0]
    · rw [decimal_large n (by omega), decimal_large (n / 10) (by omega)]
      have e0 : n / 10 / 10 = n / 100 := by omega
      have hl := decimal_length_pos (n / 100)
      rw [e0]
      have hlen : ¬ ((decimal (n / 100) ++ [(n / 10 % 10).digitChar] ++ [(n % 10).digitChar]).length ≤ 2) := by
        simp only [List.length_append, List.length_singleton]; omega
      simp only [hlen, if_false]
      have : (decimal (n / 100) ++ [(n / 10 % 10).digitChar] ++ [(n % 10).digitChar]).length - 2
          = (decimal (n / 100)).length := by simp
      rw [this]
      simp [List.take_append_eq_append_take, List.drop_append_eq_append_drop]

theorem toFixed2_eq_twoPlaces (h : Host) (q : ℚ) (hq : |q| < 10 ^ 21) :
    toFixed2 h (JSNum.fin q) = twoPlaces q := by
  simp only [toFixed2, twoPlaces, not_le.mpr hq, if_false, fixedDigits_eq]

theorem toFixed2_zero (h : Host) : toFixed2 h (JSNum.fin 0) = "0.00" := by
  rw [toFixed2_eq_twoPlaces h 0 (by norm_num)]
  decide!

theorem lookup_mem (l : List (String × String)) (k s : String)
    (hl : l.lookup k = some s) : (k, s) ∈ l := by
  induction l with
  | nil => simp at hl
  | cons a rest ih =>
    obtain ⟨a1, a2⟩ := a
    rw [List.lookup_cons] at hl
    by_cases hk : k = a1
    · subst hk
      simp at hl
      simp [hl]
    · have : (k == a1) = false := by simpa using hk
      rw [this] at hl
      exact List.mem_cons_of_mem _ (ih hl)

theorem symbolTable_nonempty (k s : String) (hl : symbolTable.lookup k = some s) : s ≠ "" := by
  have hm := lookup_mem _ _ _ hl
  have hall : ∀ e ∈ symbolTable, e.2 ≠ "" := by decide
  exact hall _ hm

/-- C9, as amended: for every currency code that is not a property name
inherited from `Object.prototype` and every finite amount below 10^21 in
magnitude, `formatCurrency` returns a symbol followed by the amount with exactly
two decimal places (nearest hundredth); the symbol is the table's entry for a
listed code and the code followed by one space for any other code. The function
is total: it fails on no code. -/
theorem formatCurrency_two_places (h : Host) (currency : String) (q : ℚ)
    (hq : |q| < 10 ^ 21)
    (hc : currency ∉ inheritedFunctions ∧ currency ≠ "__proto__") :
    formatCurrency h currency (JSVal.num (JSNum.fin q)) = listedSymbol currency ++ twoPlaces q ∧
    (∀ s, symbolTable.lookup currency = some s →
      formatCurrency h currency (JSVal.num (JSNum.fin q)) = s ++ twoPlaces q) ∧
    (symbolTable.lookup currency = none →
      formatCurrency h currency (JSVal.num (JSNum.fin q)) = currency ++ " " ++ twoPlaces q) := by
  have key : formatCurrency h currency (JSVal.num (JSNum.fin q)) =
      listedSymbol currency ++ twoPlaces q := by
    unfold formatCurrency
    rw [toNumber, toFixed2_eq_twoPlaces h q hq]
    congr 1
    unfold symbolText symbols listedSymbol
    cases hl : symbolTable.lookup currency with
    | none => simp [hc.1, hc.2]
    | some s => simp [symbolTable_nonempty _ _ hl]
  refine ⟨key, ?_, ?_⟩
  · intro s hs; rw [key, listedSymbol, hs]
  · intro hs; rw [key, listedSymbol, hs]

/-- C9 as amended, at 2.5 euros. -/
theorem formatCurrency_two_places_witness :
    formatCurrency sampleHost "EUR" (JSVal.num (JSNum.fin (5 / 2))) = "€2.50" := by
  have := (formatCurrency_two_places sampleHost "EUR" (5 / 2) (by norm_num [abs_of_pos])
    (by decide)).1
  rw [this]
  decide!

/-- C9 as stated fails: the finite amount 10^21 is written with an exponent, not
with two decimal places, and the unlisted code `__proto__` is not shown as the
code and a space. -/
theorem formatCurrency_exponent_form :
    formatCurrency sampleHost "USD" (JSVal.num (JSNum.fin (10 ^ 21))) = "$1e+21" ∧
    listedSymbol "USD" ++ twoPlaces (10 ^ 21) = "$1000000000000000000000.00" ∧
    formatCurrency sampleHost "__proto__" (JSVal.num (JSNum.fin 0)) = "[object Object]0.00" ∧
    listedSymbol "__proto__" ++ twoPlaces 0 = "__proto__ 0.00" := by
  decide!

/-- On every host the amount 10^21 leaves the two-place form. -/
theorem formatCurrency_large_any_host (h : Host) :
    formatCurrency h "USD" (JSVal.num (JSNum.fin (10 ^ 21))) ≠
      listedSymbol "USD" ++ twoPlaces (10 ^ 21) := by
  intro heq
  have hx := h.exponent_form (10 ^ 21) le_rfl
  have e1 : formatCurrency h "USD" (JSVal.num (JSNum.fin (10 ^ 21))) =
      "$" ++ h.numberToString (10 ^ 21) := by
    have hl : symbols "USD" = Looked.text "$" := by decide
    have hs : symbolText h "USD" = "$" := by simp [symbolText, hl]
    have h0 : ¬ ((10 : ℚ) ^ 21 < 0) := by norm_num
    have h1 : (10 : ℚ) ^ 21 ≤ |(10 : ℚ) ^ 21| := le_abs_self _
    have h2 : |(10 : ℚ) ^ 21| = 10 ^ 21 := abs_of_pos (by norm_num)
    simp only [formatCurrency, toNumber, toFixed2, hs, h0, h1, if_true, if_false, h2]
    simp
  have e2 : listedSymbol "USD" ++ twoPlaces (10 ^ 21) = "$1000000000000000000000.00" := by
    decide!
  rw [e1, e2] at heq
  have : 'e' ∈ ("$" ++ h.numberToString (10 ^ 21)).toList := by
    simp [String.toList] at hx ⊢
    exact hx
  rw [heq] at this
  revert this
  decide


/-! ### The balance of a currency -/

theorem findWallet_found (h : Host) (currency : String) (pre post : List Wallet) (w : Wallet)
    (hpre : ∀ v ∈ pre, v.currency ≠ JSVal.str currency) (hw : w.currency = JSVal.str currency) :
    findWallet h currency ((pre ++ w :: post).map some) = Except.ok (some w) := by
  induction pre with
  | nil => simp [findWallet, hw]
  | cons v rest ih =>
    have hv := hpre v (List.mem_cons_self _ _)
    simp only [List.cons_append, List.map_cons, findWallet, hv, if_false]
    exact ih fun x hx => hpre x (List.mem_cons_of_mem _ hx)

theorem findWallet_absent (h : Host) (currency : String) (ws : List Wallet)
    (hws : ∀ v ∈ ws, v.currency ≠ JSVal.str currency) :
    findWallet h currency (ws.map some) = Except.ok none := by
  induction ws with
  | nil => rfl
  | cons v rest ih =>
    have hv := hws v (List.mem_cons_self _ _)
    simp only [List.map_cons, findWallet, hv, if_false]
    exact ih fun x hx => hws x (List.mem_cons_of_mem _ hx)

/-- C3: for every wallet list the balance endpoint returns and every currency,
`fetchBalance` returns the balance of the first wallet whose currency is the
requested one, and returns 0, not an error, when no wallet has that currency;
`formatCurrency` shows that 0 as the currency symbol followed by "0.00". -/
theorem fetchBalance_first_match (h : Host) (net : Net) (userId : JSNum) (currency : String)
    (p : Page) (ok : Bool) (ws : List Wallet)
    (hnet : net.balance userId = Fetched.response ok (Content.data ⟨some (ws.map some)⟩)) :
    (∀ pre w post, ws = pre ++ w :: post →
      (∀ v ∈ pre, v.currency ≠ JSVal.str currency) → w.currency = JSVal.str currency →
      (fetchBalance h net userId currency p).2 = Except.ok w.balance) ∧
    ((∀ v ∈ ws, v.currency ≠ JSVal.str currency) →
      (fetchBalance h net userId currency p).2 = Except.ok (JSVal.num (JSNum.fin 0))) ∧
    formatCurrency h currency (JSVal.num (JSNum.fin 0)) = symbolText h currency ++ "0.00" := by
  refine ⟨?_, ?_, ?_⟩
  · intro pre w post hws hpre hw
    subst hws
    simp only [fetchBalance, hnet, findWallet_found h currency pre post w hpre hw]
  · intro hws
    simp only [fetchBalance, hnet, findWallet_absent h currency ws hws]
  · simp only [formatCurrency, toNumber, toFixed2_zero]


/-- C3 at a list of two wallets, asked for the second one. -/
theorem fetchBalance_first_match_witness :
    Net.serving.balance (JSNum.fin 1) =
      Fetched.response true (Content.data ⟨some (sampleWallets.map some)⟩) ∧
    (fetchBalance sampleHost Net.serving (JSNum.fin 1) "EUR" Page.blank).2 =
      Except.ok (JSVal.num (JSNum.fin 7)) :=
  ⟨rfl,
   (fetchBalance_first_match sampleHost Net.serving (JSNum.fin 1) "EUR" Page.blank true
      sampleWallets rfl).1 [⟨JSVal.str "USD", JSVal.num (JSNum.fin 5)⟩]
      ⟨JSVal.str "EUR", JSVal.num (JSNum.fin 7)⟩ [] rfl (by decide) rfl⟩

/-! ### Missing numbers -/

/-- C4: for every value whose numeric conversion is 0 or NaN (0, null, undefined,
the empty string, a non-numeric string, NaN) `safeNumber` returns exactly "0.00",
so such a `prev_balance`, `debit`, `credit` or `new_balance` of a transaction
record is rendered as "0.00" in its cell. -/
theorem safeNumber_zero_or_nan (h : Host) (value : JSVal) (t : Txn)
    (hv : toNumber h value = JSNum.fin 0 ∨ toNumber h value = JSNum.nan) :
    safeNumber h value = "0.00" ∧
    safeNumber h JSVal.undefined = "0.00" ∧ safeNumber h JSVal.null = "0.00" ∧
    safeNumber h (JSVal.num (JSNum.fin 0)) = "0.00" ∧
    safeNumber h (JSVal.num JSNum.nan) = "0.00" ∧
    (∀ s, (h.stringToNumber s = JSNum.fin 0 ∨ h.stringToNumber s = JSNum.nan) →
      safeNumber h (JSVal.str s) = "0.00") ∧
    rowMarkup h { t with prev_balance := value } =
      rowTemplate (orDash h t.user_id) (orDash h t.from_) (orDash h t.to_)
        "0.00" (safeNumber h t.debit) (safeNumber h t.credit) (safeNumber h t.new_balance) ∧
    rowMarkup h { t with debit := value } =
      rowTemplate (orDash h t.user_id) (orDash h t.from_) (orDash h t.to_)
        (safeNumber h t.prev_balance) "0.00" (safeNumber h t.credit) (safeNumber h t.new_balance) ∧
    rowMarkup h { t with credit := value } =
      rowTemplate (orDash h t.user_id) (orDash h t.from_) (orDash h t.to_)
        (safeNumber h t.prev_balance) (safeNumber h t.debit) "0.00" (safeNumber h t.new_balance) ∧
    rowMarkup h { t with new_balance := value } =
      rowTemplate (orDash h t.user_id) (orDash h t.from_) (orDash h t.to_)
        (safeNumber h t.prev_balance) (safeNumber h t.debit) (safeNumber h t.credit) "0.00" := by
  have key : ∀ v, (toNumber h v = JSNum.fin 0 ∨ toNumber h v = JSNum.nan) →
      safeNumber h v = "0.00" := by
    intro v hv
    unfold safeNumber
    rcases hv with hv | hv <;> simp [hv, JSNum.truthy]
  refine ⟨key _ hv, key _ (Or.inr rfl), key _ (Or.inl rfl), key _ (Or.inl rfl),
    key _ (Or.inr rfl), fun s hs => key _ hs, ?_, ?_, ?_, ?_⟩ <;>
    simp only [rowMarkup, key _ hv]

/-- C4 at the value `null`, in a record of user 1. -/
theorem safeNumber_zero_or_nan_witness :
    toNumber sampleHost JSVal.null = JSNum.fin 0 ∧ safeNumber sampleHost JSVal.null = "0.00" :=
  ⟨rfl,
   (safeNumber_zero_or_nan sampleHost JSVal.null
      ⟨JSVal.num (JSNum.fin 1), JSVal.str "external", JSVal.str "wallet", JSVal.null,
        JSVal.undefined, JSVal.undefined, JSVal.null⟩ (Or.inl rfl)).1⟩


/-! ### The transactions table -/

theorem isPrefixOf_append_of_le (l a b : List Char) (hl : l.length ≤ a.length) :
    l.isPrefixOf (a ++ b) = l.isPrefixOf a := by
  induction l generalizing a with
  | nil => simp
  | cons x l ih =>
    cases a with
    | nil => simp at hl
    | cons y a =>
      have hl' : l.length ≤ a.length := by simpa using hl
      show (x == y && l.isPrefixOf (a ++ b)) = (x == y && l.isPrefixOf a)
      rw [ih a hl']

theorem opensTag_append (name a b : List Char) (hl : name.length + 1 ≤ a.length) :
    opensTag name (a ++ b) = opensTag name a := by
  unfold opensTag
  rw [isPrefixOf_append_of_le _ a b (by simpa using hl),
    isPrefixOf_append_of_le _ a b (by simpa using hl)]

theorem startTags_append (name a b : List Char) (ha : selfContained name a = true) :
    startTags name (a ++ b) = startTags name a + startTags name b := by
  induction a with
  | nil => simp [startTags]
  | cons c a ih =>
    simp only [selfContained, Bool.and_eq_true, Bool.or_eq_true, bne_iff_ne, decide_eq_true_eq] at ha
    show (if c = '<' ∧ opensTag name (a ++ b) = true then 1 else 0) + startTags name (a ++ b) =
      (if c = '<' ∧ opensTag name a = true then 1 else 0) + startTags name a + startTags name b
    rw [ih ha.2]
    by_cases hc : c = '<'
    · have hlen := ha.1.resolve_left (by simp [hc])
      rw [opensTag_append name a b hlen]
      omega
    · simp [hc]

theorem selfContained_append (name a b : List Char) (ha : selfContained name a = true)
    (hb : selfContained name b = true) : selfContained name (a ++ b) = true := by
  induction a with
  | nil => simpa using hb
  | cons c a ih =>
    simp only [selfContained, Bool.and_eq_true, Bool.or_eq_true, bne_iff_ne, decide_eq_true_eq] at ha
    show ((c != '<' || decide (name.length + 1 ≤ (a ++ b).length)) &&
      selfContained name (a ++ b)) = true
    simp only [Bool.and_eq_true, Bool.or_eq_true, bne_iff_ne, decide_eq_true_eq]
    refine ⟨?_, ih ha.2⟩
    rcases ha.1 with h | h
    · exact Or.inl h
    · right; simp only [List.length_append]; omega

theorem selfContained_clean (name a : List Char) (ha : '<' ∉ a) : selfContained name a = true := by
  induction a with
  | nil => rfl
  | cons c a ih =>
    simp only [List.mem_cons, not_or] at ha
    simp only [selfContained, Bool.and_eq_true, Bool.or_eq_true, bne_iff_ne, decide_eq_true_eq]
    exact ⟨Or.inl (fun h => ha.1 h.symm), ih ha.2⟩

theorem startTags_clean (name a : List Char) (ha : '<' ∉ a) : startTags name a = 0 := by
  induction a with
  | nil => rfl
  | cons c a ih =>
    simp only [List.mem_cons, not_or] at ha
    have : c ≠ '<' := fun h => ha.1 h.symm
    simp [startTags, this, ih ha.2]


theorem counts_append (name a b : List Char) (m n : Nat)
    (ha : selfContained name a = true ∧ startTags name a = m)
    (hb : selfContained name b = true ∧ startTags name b = n) :
    selfContained name (a ++ b) = true ∧ startTags name (a ++ b) = m + n :=
  ⟨selfContained_append name a b ha.1 hb.1, by rw [startTags_append name a b ha.1, ha.2, hb.2]⟩

theorem bodyMarkup_append (a b : List BodyItem) :
    bodyMarkup (a ++ b) = bodyMarkup a ++ bodyMarkup b := by
  induction a with
  | nil => simp [bodyMarkup]
  | cons x rest ih => simp [bodyMarkup, ih, String.append_assoc]

theorem recordRow_markup (h : Host) (t : Txn) : bodyMarkup (recordRow h t) = rowMarkup h t := by
  apply String.ext
  simp only [bodyMarkup, recordRow, BodyItem.markup, rowItemsMarkup, RowItem.markup,
    Inline.markup, rowMarkup, rowTemplate, String.data_append, List.append_assoc]
  set_option maxRecDepth 100000 in rfl

theorem tableOf_markup (h : Host) (ts : List Txn) : bodyMarkup (tableOf h ts) = rowsMarkup h ts := by
  induction ts with
  | nil => rfl
  | cons t rest ih => simp only [tableOf, rowsMarkup, bodyMarkup_append, recordRow_markup, ih]

theorem recordRow_wellFormed (h : Host) (t : Txn)
    (ht : ∀ c ∈ txnCells h t, tagFree c = true) :
    (recordRow h t).all BodyItem.wellFormed = true := by
  simp only [txnCells, List.mem_cons, List.mem_singleton, forall_eq_or_imp, forall_eq,
    List.not_mem_nil, false_imp_iff, implies_true, and_true] at ht
  obtain ⟨h0, h1, h2, h3, h4, h5, h6⟩ := ht
  have g1 : isGap "\n            " = true := by decide
  have g2 : isGap "\n                " = true := by decide
  have g3 : isGap "\n        " = true := by decide
  simp [recordRow, BodyItem.wellFormed, RowItem.wellFormed, Inline.shown, g1, g2, g3,
    h0, h1, h2, h3, h4, h5, h6]

theorem textKept_chain (a b c : String) (hab : textKept a b) (hbc : textKept b c) :
    textKept a c :=
  ⟨hbc.1, fun ha => by
    have hba := hab.2 ha
    rw [hbc.2 (by rw [hba]; exact ha), hba]⟩

theorem inlineKept_chain (a b c : Inline) (hab : a.kept b) (hbc : b.kept c) : a.kept c := by
  cases a <;> cases b <;> cases c <;> simp only [Inline.kept] at hab hbc ⊢ <;>
    exact textKept_chain _ _ _ hab hbc

theorem rowItemKept_chain (a b c : RowItem) (hab : a.kept b) (hbc : b.kept c) : a.kept c := by
  cases a <;> cases b <;> cases c <;> simp only [RowItem.kept] at hab hbc ⊢ <;>
    first
    | exact hbc.trans hab
    | exact inlineKept_chain _ _ _ hab hbc

theorem forall₂_trans {α : Type} (r : α → α → Prop)
    (hr : ∀ a b c, r a b → r b c → r a c) :
    ∀ (x y z : List α), List.Forall₂ r x y → List.Forall₂ r y z → List.Forall₂ r x z := by
  intro x y z hxy
  induction hxy generalizing z with
  | nil => intro hyz; cases hyz; exact List.Forall₂.nil
  | cons hab _ ih =>
    intro hyz
    cases hyz with
    | cons hbc htl => exact List.Forall₂.cons (hr _ _ _ hab hbc) (ih _ htl)

theorem bodyItemKept_chain (a b c : BodyItem) (hab : a.kept b) (hbc : b.kept c) : a.kept c := by
  cases a <;> cases b <;> cases c <;> simp only [BodyItem.kept] at hab hbc ⊢ <;>
    first
    | exact hbc.trans hab
    | exact forall₂_trans _ rowItemKept_chain _ _ _ hab hbc

theorem inlineKept_tagFree (a b : Inline) (hab : a.kept b) : tagFree b.shown = true := by
  cases a <;> cases b <;> simp only [Inline.kept] at hab <;> exact hab.1

theorem rowKept_wellFormed (a b : List RowItem) (hab : List.Forall₂ RowItem.kept a b)
    (ha : a.all RowItem.wellFormed = true) : b.all RowItem.wellFormed = true := by
  induction hab with
  | nil => rfl
  | @cons x y xs ys hxy _ ih =>
    simp only [List.all_cons, Bool.and_eq_true] at ha ⊢
    refine ⟨?_, ih ha.2⟩
    cases x <;> cases y <;> simp only [RowItem.kept] at hxy
    · subst hxy; exact ha.1
    · exact inlineKept_tagFree _ _ hxy

theorem bodyKept_wellFormed (a b : List BodyItem) (hab : List.Forall₂ BodyItem.kept a b)
    (ha : a.all BodyItem.wellFormed = true) : b.all BodyItem.wellFormed = true := by
  induction hab with
  | nil => rfl
  | @cons x y xs ys hxy _ ih =>
    simp only [List.all_cons, Bool.and_eq_true] at ha ⊢
    refine ⟨?_, ih ha.2⟩
    cases x <;> cases y <;> simp only [BodyItem.kept] at hxy
    · subst hxy; exact ha.1
    · exact rowKept_wellFormed _ _ hxy ha.1

theorem rowKept_refl (a : List RowItem) (ha : a.all RowItem.wellFormed = true) :
    List.Forall₂ RowItem.kept a a := by
  induction a with
  | nil => exact List.Forall₂.nil
  | cons x xs ih =>
    simp only [List.all_cons, Bool.and_eq_true] at ha
    refine List.Forall₂.cons ?_ (ih ha.2)
    cases x with
    | gap s => rfl
    | td c =>
      have hc := ha.1
      cases c with
      | text t => exact ⟨hc, fun _ => rfl⟩
      | strong t => exact ⟨hc, fun _ => rfl⟩

theorem bodyKept_refl (a : List BodyItem) (ha : a.all BodyItem.wellFormed = true) :
    List.Forall₂ BodyItem.kept a a := by
  induction a with
  | nil => exact List.Forall₂.nil
  | cons x xs ih =>
    simp only [List.all_cons, Bool.and_eq_true] at ha
    refine List.Forall₂.cons ?_ (ih ha.2)
    cases x with
    | gap s => rfl
    | tr items => exact rowKept_refl items ha.1

theorem forall₂_append {α : Type} (r : α → α → Prop) (a b c d : List α)
    (hab : List.Forall₂ r a b) (hcd : List.Forall₂ r c d) : List.Forall₂ r (a ++ c) (b ++ d) := by
  induction hab with
  | nil => exact hcd
  | cons h _ ih => exact List.Forall₂.cons h ih

theorem tableOf_wellFormed (h : Host) (ts : List Txn)
    (hfree : ∀ t ∈ ts, ∀ c ∈ txnCells h t, tagFree c = true) :
    (tableOf h ts).all BodyItem.wellFormed = true := by
  induction ts with
  | nil => rfl
  | cons t rest ih =>
    simp only [tableOf, List.all_append, Bool.and_eq_true]
    exact ⟨recordRow_wellFormed h t (hfree t (List.mem_cons_self _ _)),
      ih fun x hx => hfree x (List.mem_cons_of_mem _ hx)⟩

/-- The loop on records whose texts open no tag: from a body of rows, the body
after the loop is those rows and the rows of the records, as read back. -/
theorem appendRows_rows (h : Host) (ts : List Txn)
    (hfree : ∀ t ∈ ts, ∀ c ∈ txnCells h t, tagFree c = true) :
    ∀ (body : List BodyItem) (p : Page), body.all BodyItem.wellFormed = true →
      p.tbody = bodyMarkup body →
      ∃ back, appendRows h (ts.map some) p = ({ p with tbody := bodyMarkup back }, Except.ok ()) ∧
        List.Forall₂ BodyItem.kept (body ++ tableOf h ts) back := by
  induction ts with
  | nil =>
    intro body p hbody hp
    refine ⟨body, ?_, ?_⟩
    · simp [appendRows, ← hp]
    · simpa [tableOf] using bodyKept_refl body hbody
  | cons t rest ih =>
    intro body p hbody hp
    obtain ⟨body1, hk1, hr1⟩ := h.readBack_rows body hbody
    have hrow := recordRow_wellFormed h t (hfree t (List.mem_cons_self _ _))
    have hw1 : (body1 ++ recordRow h t).all BodyItem.wellFormed = true := by
      simp only [List.all_append, Bool.and_eq_true]
      exact ⟨bodyKept_wellFormed _ _ hk1 hbody, hrow⟩
    obtain ⟨back, he, hk⟩ := ih (fun x hx => hfree x (List.mem_cons_of_mem _ hx))
      (body1 ++ recordRow h t) { p with tbody := h.readBack p.tbody ++ rowMarkup h t } hw1
      (by simp only [hp, hr1, bodyMarkup_append, recordRow_markup])
    refine ⟨back, ?_, ?_⟩
    · simp only [List.map_cons, appendRows]
      rw [he]
    · have hstep : List.Forall₂ BodyItem.kept (body ++ tableOf h (t :: rest))
          (body1 ++ recordRow h t ++ tableOf h rest) := by
        simp only [tableOf, List.append_assoc]
        exact forall₂_append _ _ _ _ _ hk1
          (bodyKept_refl _ (by
            have := tableOf_wellFormed h (t :: rest) hfree
            simpa [tableOf] using this))
      exact forall₂_trans _ bodyItemKept_chain _ _ _ hstep hk

theorem tagFree_clean (s : String) (hs : tagFree s = true) : '<' ∉ s.toList := by
  intro hmem
  simp only [tagFree, List.all_eq_true] at hs
  simpa using hs _ hmem

theorem isGap_tagFree (s : String) (hs : isGap s = true) : tagFree s = true := by
  simp only [isGap, tagFree, List.all_eq_true] at hs ⊢
  intro c hc
  have := hs c hc
  simp only [bne_iff_ne, ne_eq]
  rintro rfl
  revert this
  decide

theorem plainText_tagFree (s : String) (hs : plainText s = true) : tagFree s = true := by
  simp only [plainText, tagFree, List.all_eq_true] at hs ⊢
  intro c hc
  have := hs c hc
  simp only [bne_iff_ne, ne_eq]
  rintro rfl
  revert this
  decide

theorem counts_text (name : List Char) (s : String) (hs : tagFree s = true) :
    selfContained name s.data = true ∧ startTags name s.data = 0 :=
  ⟨selfContained_clean name _ (tagFree_clean s hs), startTags_clean name _ (tagFree_clean s hs)⟩

/-- The start tags of a cell content: none of a row, none of a cell. -/
theorem inline_counts (name : List Char) (hname : name = ['t', 'r'] ∨ name = ['t', 'd'])
    (c : Inline) (hc : tagFree c.shown = true) :
    selfContained name c.markup.data = true ∧ startTags name c.markup.data = 0 := by
  cases c with
  | text s => exact counts_text name s hc
  | strong s =>
    simp only [Inline.markup, String.data_append]
    have := counts_append name _ _ _ _ (counts_append name "<strong>".data s.data 0 0
      (by rcases hname with rfl | rfl <;> exact ⟨by decide, by decide⟩) (counts_text name s hc))
      (show selfContained name "</strong>".data = true ∧ startTags name "</strong>".data = 0 by
        rcases hname with rfl | rfl <;> exact ⟨by decide, by decide⟩)
    simpa using this

theorem rowItems_counts (items : List RowItem) (hw : items.all RowItem.wellFormed = true) :
    (selfContained ['t', 'r'] (rowItemsMarkup items).data = true ∧
      startTags ['t', 'r'] (rowItemsMarkup items).data = 0) ∧
    (selfContained ['t', 'd'] (rowItemsMarkup items).data = true ∧
      startTags ['t', 'd'] (rowItemsMarkup items).data = (rowCells items).length) := by
  induction items with
  | nil => exact ⟨⟨rfl, rfl⟩, ⟨rfl, rfl⟩⟩
  | cons x rest ih =>
    simp only [List.all_cons, Bool.and_eq_true] at hw
    have ih' := ih hw.2
    cases x with
    | gap s =>
      have hs := isGap_tagFree s hw.1
      simp only [rowItemsMarkup, RowItem.markup, rowCells, String.data_append]
      refine ⟨?_, ?_⟩
      · simpa using counts_append _ _ _ _ _ (counts_text ['t', 'r'] s hs) ih'.1
      · simpa using counts_append _ _ _ _ _ (counts_text ['t', 'd'] s hs) ih'.2
    | td c =>
      have hc : tagFree c.shown = true := hw.1
      simp only [rowItemsMarkup, RowItem.markup, rowCells, String.data_append, List.length_cons]
      refine ⟨?_, ?_⟩
      · have := counts_append _ _ _ _ _ (counts_append _ _ _ _ _
          (counts_append ['t', 'r'] "<td>".data c.markup.data 0 0 ⟨by decide, by decide⟩
            (inline_counts _ (Or.inl rfl) c hc))
          (show selfContained ['t', 'r'] "</td>".data = true ∧
            startTags ['t', 'r'] "</td>".data = 0 from ⟨by decide, by decide⟩)) ih'.1
        simpa using this
      · have := counts_append _ _ _ _ _ (counts_append _ _ _ _ _
          (counts_append ['t', 'd'] "<td>".data c.markup.data 1 0 ⟨by decide, by decide⟩
            (inline_counts _ (Or.inr rfl) c hc))
          (show selfContained ['t', 'd'] "</td>".data = true ∧
            startTags ['t', 'd'] "</td>".data = 0 from ⟨by decide, by decide⟩)) ih'.2
        rw [show (rowCells rest).length + 1 = 1 + 0 + 0 + (rowCells rest).length by omega]
        exact this

/-- The start tags of well-formed body markup: one `<tr` for each row, one `<td`
for each cell. -/
theorem body_counts (body : List BodyItem) (hw : body.all BodyItem.wellFormed = true) :
    (selfContained ['t', 'r'] (bodyMarkup body).data = true ∧
      startTags ['t', 'r'] (bodyMarkup body).data = (tableCells body).length) ∧
    (selfContained ['t', 'd'] (bodyMarkup body).data = true ∧
      startTags ['t', 'd'] (bodyMarkup body).data =
        ((tableCells body).map List.length).sum) := by
  induction body with
  | nil => exact ⟨⟨rfl, rfl⟩, ⟨rfl, rfl⟩⟩
  | cons x rest ih =>
    simp only [List.all_cons, Bool.and_eq_true] at hw
    have ih' := ih hw.2
    cases x with
    | gap s =>
      have hs := isGap_tagFree s hw.1
      simp only [bodyMarkup, BodyItem.markup, tableCells, String.data_append]
      refine ⟨?_, ?_⟩
      · simpa using counts_append _ _ _ _ _ (counts_text ['t', 'r'] s hs) ih'.1
      · simpa using counts_append _ _ _ _ _ (counts_text ['t', 'd'] s hs) ih'.2
    | tr items =>
      have hi : items.all RowItem.wellFormed = true := hw.1
      have hr := rowItems_counts items hi
      simp only [bodyMarkup, BodyItem.markup, tableCells, String.data_append, List.length_cons,
        List.map_cons, List.sum_cons]
      refine ⟨?_, ?_⟩
      · have := counts_append _ _ _ _ _ (counts_append _ _ _ _ _
          (counts_append ['t', 'r'] "<tr>".data (rowItemsMarkup items).data 1 0
            ⟨by decide, by decide⟩ hr.1)
          (show selfContained ['t', 'r'] "</tr>".data = true ∧
            startTags ['t', 'r'] "</tr>".data = 0 from ⟨by decide, by decide⟩)) ih'.1
        rw [show (tableCells rest).length + 1 = 1 + 0 + 0 + (tableCells rest).length by omega]
        exact this
      · have := counts_append _ _ _ _ _ (counts_append _ _ _ _ _
          (counts_append ['t', 'd'] "<tr>".data (rowItemsMarkup items).data 0 _
            ⟨by decide, by decide⟩ hr.2)
          (show selfContained ['t', 'd'] "</tr>".data = true ∧
            startTags ['t', 'd'] "</tr>".data = 0 from ⟨by decide, by decide⟩)) ih'.2
        rw [show (rowCells items).length + ((tableCells rest).map List.length).sum =
          0 + (rowCells items).length + 0 + ((tableCells rest).map List.length).sum by omega]
        exact this

theorem tableCells_append (a b : List BodyItem) :
    tableCells (a ++ b) = tableCells a ++ tableCells b := by
  induction a with
  | nil => rfl
  | cons x rest ih => cases x <;> simp [tableCells, ih]

theorem tableOf_cells (h : Host) (ts : List Txn) :
    tableCells (tableOf h ts) = ts.map (txnCells h) := by
  induction ts with
  | nil => rfl
  | cons t rest ih =>
    simp only [tableOf, tableCells_append, ih, List.map_cons]
    rfl

theorem rowKept_cells (a b : List RowItem) (hab : List.Forall₂ RowItem.kept a b) :
    List.Forall₂ textKept (rowCells a) (rowCells b) := by
  induction hab with
  | nil => exact List.Forall₂.nil
  | @cons x y xs ys hxy _ ih =>
    cases x <;> cases y <;> simp only [RowItem.kept] at hxy
    · exact ih
    · next c d =>
      refine List.Forall₂.cons ?_ ih
      cases c <;> cases d <;> simp only [Inline.kept] at hxy <;> exact hxy

theorem bodyKept_cells (a b : List BodyItem) (hab : List.Forall₂ BodyItem.kept a b) :
    List.Forall₂ (List.Forall₂ textKept) (tableCells a) (tableCells b) := by
  induction hab with
  | nil => exact List.Forall₂.nil
  | @cons x y xs ys hxy _ ih =>
    cases x <;> cases y <;> simp only [BodyItem.kept] at hxy
    · exact ih
    · exact List.Forall₂.cons (rowKept_cells _ _ hxy) ih

theorem rowKept_plain (a b : List RowItem) (hab : List.Forall₂ RowItem.kept a b)
    (hp : ∀ c ∈ rowCells a, plainText c = true) : b = a := by
  induction hab with
  | nil => rfl
  | @cons x y xs ys hxy _ ih =>
    cases x <;> cases y <;> simp only [RowItem.kept] at hxy
    · subst hxy
      rw [ih (by simpa [rowCells] using hp)]
    · next c d =>
      simp only [rowCells, List.mem_cons, forall_eq_or_imp] at hp
      rw [ih hp.2]
      cases c <;> cases d <;> simp only [Inline.kept] at hxy <;>
        simp only [Inline.shown] at hp <;> rw [hxy.2 hp.1]

theorem bodyKept_plain (a b : List BodyItem) (hab : List.Forall₂ BodyItem.kept a b)
    (hp : ∀ row ∈ tableCells a, ∀ c ∈ row, plainText c = true) : b = a := by
  induction hab with
  | nil => rfl
  | @cons x y xs ys hxy _ ih =>
    cases x <;> cases y <;> simp only [BodyItem.kept] at hxy
    · subst hxy
      rw [ih (by simpa [tableCells] using hp)]
    · simp only [tableCells, List.mem_cons, forall_eq_or_imp] at hp
      rw [ih hp.2, rowKept_plain _ _ hxy hp.1]

theorem truthy_false_iff (x : JSNum) : x.truthy = false ↔ (x = JSNum.nan ∨ x = JSNum.fin 0) := by
  cases x <;> simp [JSNum.truthy]

/-- The texts of the model are the texts the claim expects. -/
theorem txnCells_expected (h : Host) (t : Txn) : txnCells h t = expectedCells h t := by
  have hl : ∀ v, orDash h v = expectedLabel h v := by
    intro v
    cases v <;> simp [orDash, expectedLabel]
  have ha : ∀ v, safeNumber h v = expectedAmount h v := by
    intro v
    unfold safeNumber expectedAmount
    by_cases hz : (toNumber h v).truthy = false
    · have := (truthy_false_iff _).mp hz
      simp [hz, this]
    · have hn : ¬ (toNumber h v = JSNum.nan ∨ toNumber h v = JSNum.fin 0) :=
        fun hh => hz ((truthy_false_iff _).mpr hh)
      simp only [Bool.not_eq_false] at hz
      simp [hz, hn]
  simp only [txnCells, expectedCells, hl, ha]

theorem appendRows_frame (h : Host) (ts : List (Option Txn)) (p : Page) :
    appendRows h ts p =
      ({ p with tbody := (appendRows h ts { Page.blank with tbody := p.tbody }).1.tbody },
        (appendRows h ts { Page.blank with tbody := p.tbody }).2) := by
  induction ts generalizing p with
  | nil => simp [appendRows]
  | cons t rest ih =>
    cases t with
    | none => simp [appendRows]
    | some t =>
      simp only [appendRows]
      rw [ih]

theorem renderTransactions_twice (h : Host) (x : Option (List (Option Txn))) (p : Page) :
    renderTransactions h x (renderTransactions h x p).1 = renderTransactions h x p := by
  rcases x with _ | _ | ⟨t, rest⟩
  · rfl
  · rfl
  · simp only [renderTransactions]
    rw [appendRows_frame h (t :: rest) { p with tbody := "" }]
    rw [appendRows_frame h (t :: rest) { ({ p with tbody := "" } : Page) with tbody := _ }]

theorem renderTransactions_frame (h : Host) (x : Option (List (Option Txn))) (p : Page) :
    ∃ tb, (renderTransactions h x p).1 = { p with tbody := tb } := by
  rcases x with _ | _ | ⟨t, rest⟩
  · exact ⟨_, rfl⟩
  · exact ⟨_, rfl⟩
  · simp only [renderTransactions]
    rw [appendRows_frame]
    exact ⟨_, rfl⟩

theorem forall₂_lengths {α : Type} (r : α → α → Prop) (n : Nat) (a b : List (List α))
    (hab : List.Forall₂ (List.Forall₂ r) a b) (ha : ∀ x ∈ a, x.length = n) :
    ∀ y ∈ b, y.length = n := by
  induction hab with
  | nil => intro y hy; cases hy
  | @cons x y xs ys hxy _ ih =>
    intro z hz
    rcases List.mem_cons.mp hz with rfl | hz
    · rw [← hxy.length_eq]; exact ha x (List.mem_cons_self _ _)
    · exact ih (fun w hw => ha w (List.mem_cons_of_mem _ hw)) z hz

theorem sum_lengths (n : Nat) (l : List (List String)) (hl : ∀ x ∈ l, x.length = n) :
    (l.map List.length).sum = n * l.length := by
  induction l with
  | nil => simp
  | cons x rest ih =>
    simp only [List.map_cons, List.sum_cons, List.length_cons]
    rw [ih fun w hw => hl w (List.mem_cons_of_mem _ hw), hl x (List.mem_cons_self _ _)]
    ring

/-- C6, as amended: `renderTransactions` replaces the table body. For a missing
or empty list the body is the one placeholder row "No Transactions" with
`colspan="7"`. For a non-empty list of n records none of whose seven texts
contains `<`, the body is n rows in the order received, each of 7 cells in the
order user_id, from, to, prev_balance, debit, credit, new_balance (a null or
undefined user_id, from or to as "-"); a text with none of the characters that
the browser rewrites when the body is read back is in its cell as written, and
when all texts are such the body is exactly the n row templates. The texts are
inserted as markup, unescaped. Rendering the same list twice leaves the table
that rendering it once leaves. -/
theorem renderTransactions_rows (h : Host) (ts : List Txn) (p : Page) (hne : ts ≠ []) :
    renderTransactions h none p = ({ p with tbody := placeholderRow }, Except.ok ()) ∧
    renderTransactions h (some []) p = ({ p with tbody := placeholderRow }, Except.ok ()) ∧
    placeholderRow = "<tr><td colspan=\"7\">No Transactions</td></tr>" ∧
    rowCount placeholderRow = 1 ∧ cellCount placeholderRow = 1 ∧
    ((∀ t ∈ ts, ∀ c ∈ expectedCells h t, tagFree c = true) →
      ∃ back,
        renderTransactions h (some (ts.map some)) p =
          ({ p with tbody := bodyMarkup back }, Except.ok ()) ∧
        List.Forall₂ (List.Forall₂ textKept) (ts.map (expectedCells h)) (tableCells back) ∧
        (tableCells back).length = ts.length ∧
        (∀ row ∈ tableCells back, row.length = 7) ∧
        rowCount (bodyMarkup back) = ts.length ∧
        cellCount (bodyMarkup back) = 7 * ts.length) ∧
    ((∀ t ∈ ts, ∀ c ∈ expectedCells h t, plainText c = true) →
      renderTransactions h (some (ts.map some)) p =
          ({ p with tbody := bodyMarkup (tableOf h ts) }, Except.ok ()) ∧
        tableCells (tableOf h ts) = ts.map (expectedCells h) ∧
        bodyMarkup (tableOf h ts) = rowsMarkup h ts) ∧
    (∀ x, renderTransactions h x (renderTransactions h x p).1 = renderTransactions h x p) := by
  have hexp : txnCells h = expectedCells h := funext (txnCells_expected h)
  have main : (∀ t ∈ ts, ∀ c ∈ expectedCells h t, tagFree c = true) →
      ∃ back,
        renderTransactions h (some (ts.map some)) p =
          ({ p with tbody := bodyMarkup back }, Except.ok ()) ∧
        List.Forall₂ BodyItem.kept (tableOf h ts) back := by
    intro hfree
    have hfree' : ∀ t ∈ ts, ∀ c ∈ txnCells h t, tagFree c = true := by
      intro t ht c hc
      rw [txnCells_expected] at hc
      exact hfree t ht c hc
    obtain ⟨back, he, hk⟩ := appendRows_rows h ts hfree' [] { p with tbody := "" } rfl rfl
    refine ⟨back, ?_, by simpa using hk⟩
    cases ts with
    | nil => exact absurd rfl hne
    | cons t rest =>
      simp only [List.map_cons] at he
      simp only [renderTransactions, List.map_cons, he]
  refine ⟨rfl, rfl, rfl, by decide, by decide, ?_, ?_, fun x => renderTransactions_twice h x p⟩
  · intro hfree
    have hfree' : ∀ t ∈ ts, ∀ c ∈ txnCells h t, tagFree c = true := by
      intro t ht c hc
      rw [txnCells_expected] at hc
      exact hfree t ht c hc
    obtain ⟨back, he, hk⟩ := main hfree
    have hcells := bodyKept_cells _ _ hk
    rw [tableOf_cells, hexp] at hcells
    have hlen : (tableCells back).length = ts.length := by
      have := hcells.length_eq
      simpa using this.symm
    have hrow : ∀ row ∈ tableCells back, row.length = 7 := by
      apply forall₂_lengths _ 7 _ _ hcells
      intro x hx
      obtain ⟨t, -, rfl⟩ := List.mem_map.mp hx
      rfl
    have hw := bodyKept_wellFormed _ _ hk (tableOf_wellFormed h ts hfree')
    have hc := body_counts back hw
    refine ⟨back, he, hcells, hlen, hrow, ?_, ?_⟩
    · simp only [rowCount, String.toList]
      rw [hc.1.2, hlen]
    · simp only [cellCount, String.toList]
      rw [hc.2.2, sum_lengths 7 _ hrow, hlen]
  · intro hplain
    have hfree : ∀ t ∈ ts, ∀ c ∈ expectedCells h t, tagFree c = true :=
      fun t ht c hc => plainText_tagFree c (hplain t ht c hc)
    obtain ⟨back, he, hk⟩ := main hfree
    have hb : back = tableOf h ts := by
      apply bodyKept_plain _ _ hk
      intro row hrow c hc
      rw [tableOf_cells] at hrow
      obtain ⟨t, ht, rfl⟩ := List.mem_map.mp hrow
      rw [txnCells_expected] at hc
      exact hplain t ht c hc
    rw [hb] at he
    refine ⟨he, ?_, tableOf_markup h ts⟩
    rw [tableOf_cells, hexp]

/-- C6 as amended, at the two sample records. -/
theorem renderTransactions_rows_witness :
    sampleTxns ≠ [] ∧
    (renderTransactions sampleHost (some (sampleTxns.map some)) Page.blank).1.tbody =
      rowsMarkup sampleHost sampleTxns := by
  refine ⟨by decide, ?_⟩
  have key := (renderTransactions_rows sampleHost sampleTxns Page.blank (by decide)).2.2.2.2.2.2.1
    (by decide!)
  rw [key.1, key.2.2]

/-- C6 as stated fails: one record whose `from` label is `</td><td>` gives a row
of 8 cells. -/
theorem tagged_label_adds_a_cell :
    (renderTransactions sampleHost (some [some taggedTxn]) Page.blank).1.tbody =
      rowTemplate "1" "</td><td>" "wallet" "0.00" "0.00" "100.00" "100.00" ∧
    rowCount (renderTransactions sampleHost (some [some taggedTxn]) Page.blank).1.tbody = 1 ∧
    cellCount (renderTransactions sampleHost (some [some taggedTxn]) Page.blank).1.tbody = 8 := by
  decide!

/-! ### Handlers -/

theorem loadTransactions_frame (h : Host) (net : Net) (u : JSNum) (p : Page) :
    ∃ tb co, loadTransactions h net u p =
      { p with tbody := tb, console := co, sent := p.sent ++ [Request.transactions u] } := by
  unfold loadTransactions
  simp only []
  split
  · exact ⟨_, _, rfl⟩
  · exact ⟨_, _, rfl⟩
  · exact ⟨_, _, rfl⟩
  · next d _ =>
    obtain ⟨tb, htb⟩ := renderTransactions_frame h d.transactions
      { p with sent := p.sent ++ [Request.transactions u] }
    split
    · next p2 _ heq => rw [heq] at htb; simp only at htb; rw [htb]; exact ⟨_, _, rfl⟩
    · next p2 m heq => rw [heq] at htb; simp only at htb; rw [htb]; exact ⟨_, _, rfl⟩

theorem loadTransactions_report (h : Host) (net : Net) (u : JSNum) (p : Page) :
    (loadTransactions h net u p).report = p.report := by
  obtain ⟨tb, co, hl⟩ := loadTransactions_frame h net u p
  rw [hl]
  rfl

theorem showToast_report (m t : String) (p q : Page) (hpq : p.report = q.report) :
    (showToast m t p).report = (showToast m t q).report := by
  simp only [Page.report, showToast, Prod.mk.injEq] at hpq ⊢
  exact ⟨trivial, trivial, hpq.2.2.1, hpq.2.2.2.1, hpq.2.2.2.2.1, hpq.2.2.2.2.2⟩

/-- The report of the shared body of `deposit()` and `withdraw()` does not
depend on the answers to the history request. -/
theorem transact_report (h : Host) (net net' : Net) (send : WriteBody → Fetched WriteData)
    (request : WriteBody → Request) (failed done : String) (f : Fields) (p : Page) :
    (transact h net' send request failed done f p).report =
      (transact h net send request failed done f p).report := by
  unfold transact
  cases getValidatedInputs f true with
  | error m => rfl
  | ok i =>
    simp only []
    cases send (writeBody i) with
    | rejected m => rfl
    | response ok c =>
      cases c with
      | unparsable m => rfl
      | null => rfl
      | data d =>
        simp only []
        cases ok with
        | false => rfl
        | true =>
          simp only [Bool.not_true, Bool.false_eq_true, if_false]
          cases renderSummary h i.userId i.currency d.new_balance
              { p with sent := p.sent ++ [request (writeBody i)] } with
          | mk q r =>
            cases r with
            | error m => rfl
            | ok u =>
              simp only []
              apply showToast_report
              rw [loadTransactions_report, loadTransactions_report]

theorem fetchBalance_history (h : Host) (net : Net) (answers : JSNum → Fetched TxnData)
    (u : JSNum) (c : String) (p : Page) :
    fetchBalance h (net.withHistory answers) u c p = fetchBalance h net u c p := rfl

theorem getBalance_report (h : Host) (net : Net) (answers : JSNum → Fetched TxnData)
    (f : Fields) (p : Page) :
    (getBalance h (net.withHistory answers) f p).report = (getBalance h net f p).report := by
  unfold getBalance
  cases getValidatedInputs f false with
  | error m => rfl
  | ok i =>
    simp only [fetchBalance_history]
    cases fetchBalance h net i.userId i.currency p with
    | mk q r =>
      cases r with
      | error m => rfl
      | ok balance =>
        simp only []
        cases renderSummary h i.userId i.currency balance.json q with
        | mk q2 r2 =>
          cases r2 with
          | error m => rfl
          | ok u =>
            simp only []
            apply showToast_report
            rw [loadTransactions_report, loadTransactions_report]

theorem renderSummary_texts (h : Host) (u : JSNum) (c : String) (b : Option JSON) (p q : Page)
    (r : Unit) (hr : renderSummary h u c b p = (q, Except.ok r)) :
    q.sent = p.sent ∧ q.summaryUser = "User ID: " ++ numberText h u ∧
    q.balanceCurrency = "Available Balance (" ++ c ++ ")" ∧
    ∃ amount, JSON.primitive h b = Except.ok amount ∧
      q.balanceAmount = formatCurrency h c amount := by
  unfold renderSummary at hr
  simp only [] at hr
  split at hr
  · simp at hr
  · next amount hp =>
    split_ifs at hr
    · simp at hr
    · simp only [Prod.mk.injEq, and_true] at hr
      subst hr
      exact ⟨rfl, rfl, rfl, amount, hp, rfl⟩
    · simp only [Prod.mk.injEq, and_true] at hr
      subst hr
      exact ⟨rfl, rfl, rfl, amount, hp, rfl⟩

theorem getValidatedInputs_ok (f : Fields) (requireAmount : Bool) (i : Inputs)
    (hi : getValidatedInputs f requireAmount = Except.ok i) :
    i = ⟨f.userId, f.currency, f.amount⟩ := by
  rw [getValidatedInputs_eq] at hi
  split_ifs at hi
  cases hi
  rfl

theorem append_two_ne (l : List Request) (a b : Request) :
    l ≠ l ++ [a, b] ∧ ∀ c, l ++ [c] ≠ l ++ [a, b] := by
  refine ⟨fun hl => ?_, fun c hl => ?_⟩
  · have := congrArg List.length hl
    simp at this
  · have := congrArg List.length hl
    simp at this

/-- A run of the shared body of `deposit()` and `withdraw()` in which the
history is requested ends with the success toast and the summary written. -/
theorem transact_requested (h : Host) (net : Net) (send : WriteBody → Fetched WriteData)
    (request : WriteBody → Request) (failed done : String) (f : Fields) (p : Page)
    (b : Request) (u : JSNum)
    (hsent : (transact h net send request failed done f p).sent =
      p.sent ++ [b, Request.transactions u]) :
    (transact h net send request failed done f p).toastText = done ∧
    (transact h net send request failed done f p).toastClass = "show success" ∧
    (transact h net send request failed done f p).summaryUser =
      "User ID: " ++ numberText h f.userId ∧
    (transact h net send request failed done f p).balanceCurrency =
      "Available Balance (" ++ f.currency ++ ")" ∧
    ∃ amount, (transact h net send request failed done f p).balanceAmount =
      formatCurrency h f.currency amount := by
  have no1 := (append_two_ne p.sent b (Request.transactions u)).1
  have no2 := (append_two_ne p.sent b (Request.transactions u)).2
  revert hsent
  unfold transact
  cases hv : getValidatedInputs f true with
  | error m => intro hsent; exact absurd hsent no1
  | ok i =>
    have hi := getValidatedInputs_ok f true i hv
    simp only []
    cases send (writeBody i) with
    | rejected m => intro hsent; exact absurd hsent (no2 _)
    | response ok c =>
      cases c with
      | unparsable m => intro hsent; exact absurd hsent (no2 _)
      | null => intro hsent; exact absurd hsent (no2 _)
      | data d =>
        simp only []
        cases ok with
        | false => intro hsent; exact absurd hsent (no2 _)
        | true =>
          simp only [Bool.not_true, Bool.false_eq_true, if_false]
          cases hr : renderSummary h i.userId i.currency d.new_balance
              { p with sent := p.sent ++ [request (writeBody i)] } with
          | mk q r =>
            cases r with
            | error m =>
              intro hsent
              have hq := renderSummary_sent h i.userId i.currency d.new_balance
                { p with sent := p.sent ++ [request (writeBody i)] }
              rw [hr] at hq
              simp only [showToast_sent] at hsent
              rw [hq] at hsent
              exact absurd hsent (no2 _)
            | ok r =>
              intro _
              obtain ⟨-, h1, h2, amount, -, h3⟩ := renderSummary_texts h _ _ _ _ _ _ hr
              obtain ⟨tb, co, hl⟩ := loadTransactions_frame h net i.userId q
              simp only []
              rw [hl]
              refine ⟨rfl, rfl, ?_, ?_, amount, ?_⟩
              · show q.summaryUser = _
                rw [h1, hi]
              · show q.balanceCurrency = _
                rw [h2, hi]
              · show q.balanceAmount = _
                rw [h3, hi]

/-- A balance check in which the history is requested ends with the success
toast and the summary written. -/
theorem getBalance_requested (h : Host) (net : Net) (f : Fields) (p : Page)
    (b : Request) (u : JSNum)
    (hsent : (getBalance h net f p).sent = p.sent ++ [b, Request.transactions u]) :
    (getBalance h net f p).toastText = "Balance Loaded" ∧
    (getBalance h net f p).toastClass = "show success" ∧
    (getBalance h net f p).summaryUser = "User ID: " ++ numberText h f.userId ∧
    (getBalance h net f p).balanceCurrency = "Available Balance (" ++ f.currency ++ ")" ∧
    ∃ amount, (getBalance h net f p).balanceAmount = formatCurrency h f.currency amount := by
  have no1 := (append_two_ne p.sent b (Request.transactions u)).1
  have no2 := (append_two_ne p.sent b (Request.transactions u)).2
  have hfb : (fetchBalance h net f.userId f.currency p).1.sent =
      p.sent ++ [Request.balance f.userId] := by
    unfold fetchBalance
    simp only []
    split <;> try rfl
    split <;> try rfl
    split <;> rfl
  revert hsent
  unfold getBalance
  cases hv : getValidatedInputs f false with
  | error m => intro hsent; exact absurd hsent no1
  | ok i =>
    have hi := getValidatedInputs_ok f false i hv
    subst hi
    simp only []
    cases hf : fetchBalance h net f.userId f.currency p with
    | mk q r =>
      rw [hf] at hfb
      simp only at hfb
      cases r with
      | error m =>
        intro hsent
        simp only [showToast_sent] at hsent
        rw [hfb] at hsent
        exact absurd hsent (no2 _)
      | ok balance =>
        simp only []
        cases hr : renderSummary h f.userId f.currency balance.json q with
        | mk q2 r2 =>
          cases r2 with
          | error m =>
            intro hsent
            have hq := renderSummary_sent h f.userId f.currency balance.json q
            rw [hr] at hq
            simp only [showToast_sent] at hsent
            rw [hq, hfb] at hsent
            exact absurd hsent (no2 _)
          | ok r =>
            intro _
            obtain ⟨-, h1, h2, amount, -, h3⟩ := renderSummary_texts h _ _ _ _ _ _ hr
            obtain ⟨tb, co, hl⟩ := loadTransactions_frame h net f.userId q2
            simp only []
            rw [hl]
            refine ⟨rfl, rfl, ?_, ?_, amount, ?_⟩
            · show q2.summaryUser = _
              rw [h1]
            · show q2.balanceCurrency = _
              rw [h2]
            · show q2.balanceAmount = _
              rw [h3]

theorem primitive_json (h : Host) (v : JSVal) : JSON.primitive h v.json = Except.ok v := by
  cases v <;> rfl

theorem renderSummary_valid (h : Host) (u : JSNum) (c : String) (b : Option JSON) (p : Page)
    (amount : JSVal) (hb : JSON.primitive h b = Except.ok amount)
    (hc : validToken ("balance-" ++ c) = true) :
    ∃ cls, renderSummary h u c b p =
      ({ p with summaryUser := "User ID: " ++ numberText h u,
                balanceCurrency := "Available Balance (" ++ c ++ ")",
                balanceAmount := formatCurrency h c amount, boxClass := cls }, Except.ok ()) := by
  unfold renderSummary
  simp only [hb, hc, Bool.not_true, Bool.false_eq_true, if_false]
  split_ifs
  · exact ⟨_, rfl⟩
  · exact ⟨_, rfl⟩

/-- An accepted write: the shared body of `deposit()` and `withdraw()` on an ok
response with a body whose balance has a primitive value, when the class token
of the currency is valid. -/
theorem transact_accepted (h : Host) (net : Net) (send : WriteBody → Fetched WriteData)
    (request : WriteBody → Request) (failed done : String) (f : Fields) (p : Page) (i : Inputs)
    (d : WriteData) (amount : JSVal)
    (hi : getValidatedInputs f true = Except.ok i)
    (hs : send (writeBody i) = Fetched.response true (Content.data d))
    (hb : JSON.primitive h d.new_balance = Except.ok amount)
    (hc : validToken ("balance-" ++ i.currency) = true) :
    ∃ cls tb co, transact h net send request failed done f p =
      { p with toastText := done, toastClass := "show success",
               toastTimers := p.toastTimers + 1,
               summaryUser := "User ID: " ++ numberText h i.userId,
               balanceCurrency := "Available Balance (" ++ i.currency ++ ")",
               balanceAmount := formatCurrency h i.currency amount,
               boxClass := cls, tbody := tb, console := co,
               sent := p.sent ++ [request (writeBody i), Request.transactions i.userId] } := by
  obtain ⟨cls, hr⟩ := renderSummary_valid h i.userId i.currency d.new_balance
    { p with sent := p.sent ++ [request (writeBody i)] } amount hb hc
  obtain ⟨tb, co, hl⟩ := loadTransactions_frame h net i.userId
    (renderSummary h i.userId i.currency d.new_balance
      { p with sent := p.sent ++ [request (writeBody i)] }).1
  refine ⟨cls, tb, co, ?_⟩
  simp only [transact, hi, hs, Bool.not_true, Bool.false_eq_true, if_false]
  rw [hr] at hl ⊢
  simp only [hl, showToast]
  simp

/-- A balance check whose fetch returned a balance, with a valid class token. -/
theorem getBalance_loaded (h : Host) (net : Net) (f : Fields) (p : Page) (i : Inputs)
    (balance : JSVal)
    (hi : getValidatedInputs f false = Except.ok i)
    (hb : (fetchBalance h net i.userId i.currency p).2 = Except.ok balance)
    (hc : validToken ("balance-" ++ i.currency) = true) :
    ∃ cls tb co, getBalance h net f p =
      { p with toastText := "Balance Loaded", toastClass := "show success",
               toastTimers := p.toastTimers + 1,
               summaryUser := "User ID: " ++ numberText h i.userId,
               balanceCurrency := "Available Balance (" ++ i.currency ++ ")",
               balanceAmount := formatCurrency h i.currency balance,
               boxClass := cls, tbody := tb, console := co,
               sent := p.sent ++ [Request.balance i.userId, Request.transactions i.userId] } := by
  have hp : (fetchBalance h net i.userId i.currency p).1 =
      { p with sent := p.sent ++ [Request.balance i.userId] } := by
    unfold fetchBalance
    simp only []
    split <;> try rfl
    split <;> try rfl
    split <;> rfl
  obtain ⟨cls, hr⟩ := renderSummary_valid h i.userId i.currency balance.json
    { p with sent := p.sent ++ [Request.balance i.userId] } balance (primitive_json h balance) hc
  obtain ⟨tb, co, hl⟩ := loadTransactions_frame h net i.userId
    (renderSummary h i.userId i.currency balance.json
      { p with sent := p.sent ++ [Request.balance i.userId] }).1
  refine ⟨cls, tb, co, ?_⟩
  have hfb : fetchBalance h net i.userId i.currency p =
      ({ p with sent := p.sent ++ [Request.balance i.userId] }, Except.ok balance) :=
    Prod.ext hp hb
  simp only [getBalance, hi, hfb]
  rw [hr] at hl ⊢
  simp only [hl, showToast]
  simp

/-- A refused write: the shared body of `deposit()` and `withdraw()` on a
response that is not ok. -/
theorem transact_refused (h : Host) (net : Net) (send : WriteBody → Fetched WriteData)
    (request : WriteBody → Request) (failed done : String) (f : Fields) (p : Page) (i : Inputs)
    (c : Content WriteData)
    (hi : getValidatedInputs f true = Except.ok i)
    (hs : send (writeBody i) = Fetched.response false c) :
    ∃ m, transact h net send request failed done f p =
        showToast m "error" { p with sent := p.sent ++ [request (writeBody i)] } ∧
      (∀ d, c = Content.data d → JSON.truthy d.detail = false → m = failed) ∧
      (∀ d v s, c = Content.data d → d.detail = some v → JSON.truthy (some v) = true →
        JSON.text h v = Except.ok s → m = s) ∧
      (∀ d v e, c = Content.data d → d.detail = some v → JSON.truthy (some v) = true →
        JSON.text h v = Except.error e → m = e) ∧
      (∀ e, c = Content.unparsable e → m = e) ∧
      (c = Content.null → m = h.nullReadMessage JSVal.null "detail") := by
  cases c with
  | unparsable e => exact ⟨e, by simp [transact, hi, hs]⟩
  | null => exact ⟨h.nullReadMessage JSVal.null "detail", by simp [transact, hi, hs]⟩
  | data d =>
    refine ⟨failureMessage h d.detail failed, by simp [transact, hi, hs], ?_, ?_, ?_, ?_, ?_⟩
    · intro d' hd ht
      cases hd
      unfold failureMessage
      cases hdet : d.detail with
      | none => rfl
      | some v => rw [hdet] at ht; simp [ht]
    · intro d' v s hd hv ht hs'
      cases hd
      simp [failureMessage, hv, ht, hs']
    · intro d' v e hd hv ht hs'
      cases hd
      simp [failureMessage, hv, ht, hs']
    · intro e he; cases he
    · intro he; cases he

theorem json_text_facts (h : Host) :
    (∀ s, s ≠ "" → JSON.truthy (some (JSON.str s)) = true ∧
      JSON.text h (JSON.str s) = Except.ok s) ∧
    JSON.truthy none = false ∧ JSON.truthy (some JSON.null) = false ∧
    JSON.truthy (some (JSON.str "")) = false ∧
    JSON.truthy (some (JSON.bool false)) = false ∧
    JSON.truthy (some (JSON.num (JSNum.fin 0))) = false ∧
    JSON.truthy (some (JSON.num JSNum.nan)) = false ∧
    (∀ items, JSON.truthy (some (JSON.arr items)) = true ∧
      JSON.text h (JSON.arr items) = JSON.joined h items) ∧
    (∀ members, JSON.truthy (some (JSON.obj members)) = true ∧
      JSON.text h (JSON.obj members) =
        if members.any (fun m => m.1 == "toString") = true then
          Except.error h.notPrimitiveMessage
        else Except.ok "[object Object]") := by
  refine ⟨fun s hs => ⟨by simp [JSON.truthy, hs], by simp [JSON.text]⟩, rfl, rfl,
    by simp [JSON.truthy], rfl, by simp [JSON.truthy, JSNum.truthy], rfl,
    fun items => ⟨rfl, by simp [JSON.text]⟩, fun members => ⟨rfl, by simp [JSON.text]⟩⟩

/-- C5, as amended: on a response that is not ok, `deposit()` (resp.
`withdraw()`) ends with an error toast, does not render the summary again and
does not reload the history. When the body parses to a value other than null,
the message is "Deposit Failed" (resp. "Withdrawal Failed") when `detail` is
missing or falsy (null, false, 0, NaN, the empty string), and the string form of
`detail` otherwise: a non-empty string as it is, an array as its elements joined
by commas, an object as `[object Object]`, and the message of the TypeError
when `detail` has no string form. When the body does not parse, the message is
that of the parse error, and when it is null that of the failed read. -/
theorem refused_write_shows_error (h : Host) (net : Net) (f : Fields) (p : Page) (i : Inputs)
    (hi : getValidatedInputs f true = Except.ok i) :
    (∀ c, net.deposit (writeBody i) = Fetched.response false c →
      ∃ m, deposit h net f p =
          showToast m "error" { p with sent := p.sent ++ [Request.deposit (writeBody i)] } ∧
        (∀ d, c = Content.data d → JSON.truthy d.detail = false → m = "Deposit Failed") ∧
        (∀ d v s, c = Content.data d → d.detail = some v → JSON.truthy (some v) = true →
          JSON.text h v = Except.ok s → m = s) ∧
        (∀ d v e, c = Content.data d → d.detail = some v → JSON.truthy (some v) = true →
          JSON.text h v = Except.error e → m = e) ∧
        (∀ e, c = Content.unparsable e → m = e) ∧
        (c = Content.null → m = h.nullReadMessage JSVal.null "detail") ∧
        (deposit h net f p).toastText = m ∧ (deposit h net f p).toastClass = "show error" ∧
        (deposit h net f p).summaryUser = p.summaryUser ∧
        (deposit h net f p).balanceCurrency = p.balanceCurrency ∧
        (deposit h net f p).balanceAmount = p.balanceAmount ∧
        (deposit h net f p).boxClass = p.boxClass ∧
        (deposit h net f p).tbody = p.tbody ∧
        (deposit h net f p).sent = p.sent ++ [Request.deposit (writeBody i)]) ∧
    (∀ c, net.withdraw (writeBody i) = Fetched.response false c →
      ∃ m, withdraw h net f p =
          showToast m "error" { p with sent := p.sent ++ [Request.withdraw (writeBody i)] } ∧
        (∀ d, c = Content.data d → JSON.truthy d.detail = false → m = "Withdrawal Failed") ∧
        (∀ d v s, c = Content.data d → d.detail = some v → JSON.truthy (some v) = true →
          JSON.text h v = Except.ok s → m = s) ∧
        (∀ d v e, c = Content.data d → d.detail = some v → JSON.truthy (some v) = true →
          JSON.text h v = Except.error e → m = e) ∧
        (∀ e, c = Content.unparsable e → m = e) ∧
        (c = Content.null → m = h.nullReadMessage JSVal.null "detail") ∧
        (withdraw h net f p).toastText = m ∧ (withdraw h net f p).toastClass = "show error" ∧
        (withdraw h net f p).summaryUser = p.summaryUser ∧
        (withdraw h net f p).balanceCurrency = p.balanceCurrency ∧
        (withdraw h net f p).balanceAmount = p.balanceAmount ∧
        (withdraw h net f p).boxClass = p.boxClass ∧
        (withdraw h net f p).tbody = p.tbody ∧
        (withdraw h net f p).sent = p.sent ++ [Request.withdraw (writeBody i)]) ∧
    (∀ s, s ≠ "" → JSON.truthy (some (JSON.str s)) = true ∧
      JSON.text h (JSON.str s) = Except.ok s) ∧
    JSON.truthy none = false ∧ JSON.truthy (some JSON.null) = false ∧
    JSON.truthy (some (JSON.str "")) = false ∧
    JSON.truthy (some (JSON.bool false)) = false ∧
    JSON.truthy (some (JSON.num (JSNum.fin 0))) = false ∧
    JSON.truthy (some (JSON.num JSNum.nan)) = false ∧
    (∀ items, JSON.truthy (some (JSON.arr items)) = true ∧
      JSON.text h (JSON.arr items) = JSON.joined h items) ∧
    (∀ members, JSON.truthy (some (JSON.obj members)) = true ∧
      JSON.text h (JSON.obj members) =
        if members.any (fun m => m.1 == "toString") = true then
          Except.error h.notPrimitiveMessage
        else Except.ok "[object Object]") := by
  refine ⟨?_, ?_, json_text_facts h⟩
  · intro c hc
    obtain ⟨m, e, a1, a2, a3, a4, a5⟩ := transact_refused h net net.deposit Request.deposit
      "Deposit Failed" "Deposit Successful" f p i c hi hc
    refine ⟨m, e, a1, a2, a3, a4, a5, ?_⟩
    unfold deposit
    rw [e]
    simp [showToast]
  · intro c hc
    obtain ⟨m, e, a1, a2, a3, a4, a5⟩ := transact_refused h net net.withdraw Request.withdraw
      "Withdrawal Failed" "Withdrawal Successful" f p i c hi hc
    refine ⟨m, e, a1, a2, a3, a4, a5, ?_⟩
    unfold withdraw
    rw [e]
    simp [showToast]

/-- C5 as amended, at a refusal with the detail "Insufficient funds". -/
theorem refused_write_shows_error_witness :
    getValidatedInputs sampleFields true = Except.ok ⟨JSNum.fin 1, "USD", JSNum.fin 5⟩ ∧
    (deposit sampleHost Net.refusing sampleFields Page.blank).toastText = "Insufficient funds" := by
  obtain ⟨m, -, -, hm, -, -, -, ht, -⟩ :=
    (refused_write_shows_error sampleHost Net.refusing sampleFields Page.blank
      ⟨JSNum.fin 1, "USD", JSNum.fin 5⟩ (by decide!)).1 _ rfl
  refine ⟨by decide!, ?_⟩
  rw [ht, hm _ (JSON.str "Insufficient funds") "Insufficient funds" rfl rfl (by decide) (by decide)]

/-- A refusal whose `detail` is a list of validation errors: the toast shows
the string form of the list. -/
theorem list_detail_shows_object_text :
    (deposit sampleHost Net.unprocessable sampleFields Page.blank).toastText = "[object Object]" ∧
    (deposit sampleHost Net.unprocessable sampleFields Page.blank).toastClass = "show error" := by
  decide!

/-- C5 as stated fails: a response that is not ok and whose body is not JSON has
no detail, and the toast shows the message of the parse error, not
"Deposit Failed" or "Withdrawal Failed". -/
theorem unparsable_refusal_shows_parse_error :
    Net.broken.deposit (writeBody ⟨JSNum.fin 1, "USD", JSNum.fin 5⟩) =
      Fetched.response false (Content.unparsable "Unexpected token I in JSON at position 0") ∧
    (deposit sampleHost Net.broken sampleFields Page.blank).toastText =
      "Unexpected token I in JSON at position 0" ∧
    (deposit sampleHost Net.broken sampleFields Page.blank).toastText ≠ "Deposit Failed" ∧
    (withdraw sampleHost Net.broken sampleFields Page.blank).toastText =
      "Unexpected token I in JSON at position 0" ∧
    (withdraw sampleHost Net.broken sampleFields Page.blank).toastText ≠ "Withdrawal Failed" :=
  ⟨rfl, by decide!, by decide!, by decide!, by decide!⟩

/-- C10: `loadTransactions` has no failing completion: a rejected fetch, a body
that does not parse, a null body and an error while rendering each end in the
console, and the toast and the balance summary are left as they were. So the
toast and the summary with which `deposit()`, `withdraw()` and `getBalance()`
end do not depend on what the history request does; every run in which the
history is requested ends with the success toast and the summary written; and a
handler whose main request succeeded (valid inputs, an ok response with a body,
a balance that renders) ends with its success toast and the new balance in the
summary, whatever the history request does. -/
theorem history_failure_keeps_success (h : Host) (net : Net) (f : Fields) (p : Page) :
    (∀ u q m, net.transactions u = Fetched.rejected m →
      loadTransactions h net u q =
        logError m { q with sent := q.sent ++ [Request.transactions u] }) ∧
    (∀ u q ok m, net.transactions u = Fetched.response ok (Content.unparsable m) →
      loadTransactions h net u q =
        logError m { q with sent := q.sent ++ [Request.transactions u] }) ∧
    (∀ u q ok, net.transactions u = Fetched.response ok Content.null →
      loadTransactions h net u q =
        logError (h.nullReadMessage JSVal.null "transactions")
          { q with sent := q.sent ++ [Request.transactions u] }) ∧
    (∀ u q ok d q2 m, net.transactions u = Fetched.response ok (Content.data d) →
      renderTransactions h d.transactions { q with sent := q.sent ++ [Request.transactions u] } =
        (q2, Except.error m) →
      loadTransactions h net u q = logError m q2) ∧
    (∀ u q, (loadTransactions h net u q).toastText = q.toastText ∧
      (loadTransactions h net u q).toastClass = q.toastClass ∧
      (loadTransactions h net u q).summaryUser = q.summaryUser ∧
      (loadTransactions h net u q).balanceCurrency = q.balanceCurrency ∧
      (loadTransactions h net u q).balanceAmount = q.balanceAmount ∧
      (loadTransactions h net u q).boxClass = q.boxClass) ∧
    (∀ answers,
      (deposit h (net.withHistory answers) f p).report = (deposit h net f p).report ∧
      (withdraw h (net.withHistory answers) f p).report = (withdraw h net f p).report ∧
      (getBalance h (net.withHistory answers) f p).report = (getBalance h net f p).report) ∧
    (∀ b u, (deposit h net f p).sent = p.sent ++ [b, Request.transactions u] →
      (deposit h net f p).toastText = "Deposit Successful" ∧
      (deposit h net f p).toastClass = "show success" ∧
      (deposit h net f p).summaryUser = "User ID: " ++ numberText h f.userId ∧
      (deposit h net f p).balanceCurrency = "Available Balance (" ++ f.currency ++ ")" ∧
      ∃ amount, (deposit h net f p).balanceAmount = formatCurrency h f.currency amount) ∧
    (∀ b u, (withdraw h net f p).sent = p.sent ++ [b, Request.transactions u] →
      (withdraw h net f p).toastText = "Withdrawal Successful" ∧
      (withdraw h net f p).toastClass = "show success" ∧
      (withdraw h net f p).summaryUser = "User ID: " ++ numberText h f.userId ∧
      (withdraw h net f p).balanceCurrency = "Available Balance (" ++ f.currency ++ ")" ∧
      ∃ amount, (withdraw h net f p).balanceAmount = formatCurrency h f.currency amount) ∧
    (∀ b u, (getBalance h net f p).sent = p.sent ++ [b, Request.transactions u] →
      (getBalance h net f p).toastText = "Balance Loaded" ∧
      (getBalance h net f p).toastClass = "show success" ∧
      (getBalance h net f p).summaryUser = "User ID: " ++ numberText h f.userId ∧
      (getBalance h net f p).balanceCurrency = "Available Balance (" ++ f.currency ++ ")" ∧
      ∃ amount, (getBalance h net f p).balanceAmount = formatCurrency h f.currency amount) ∧
    (∀ i d amount, getValidatedInputs f true = Except.ok i →
      net.deposit (writeBody i) = Fetched.response true (Content.data d) →
      JSON.primitive h d.new_balance = Except.ok amount →
      validToken ("balance-" ++ i.currency) = true →
      (deposit h net f p).toastText = "Deposit Successful" ∧
      (deposit h net f p).toastClass = "show success" ∧
      (deposit h net f p).summaryUser = "User ID: " ++ numberText h i.userId ∧
      (deposit h net f p).balanceCurrency = "Available Balance (" ++ i.currency ++ ")" ∧
      (deposit h net f p).balanceAmount = formatCurrency h i.currency amount) ∧
    (∀ i d amount, getValidatedInputs f true = Except.ok i →
      net.withdraw (writeBody i) = Fetched.response true (Content.data d) →
      JSON.primitive h d.new_balance = Except.ok amount →
      validToken ("balance-" ++ i.currency) = true →
      (withdraw h net f p).toastText = "Withdrawal Successful" ∧
      (withdraw h net f p).toastClass = "show success" ∧
      (withdraw h net f p).summaryUser = "User ID: " ++ numberText h i.userId ∧
      (withdraw h net f p).balanceCurrency = "Available Balance (" ++ i.currency ++ ")" ∧
      (withdraw h net f p).balanceAmount = formatCurrency h i.currency amount) ∧
    (∀ i balance, getValidatedInputs f false = Except.ok i →
      (fetchBalance h net i.userId i.currency p).2 = Except.ok balance →
      validToken ("balance-" ++ i.currency) = true →
      (getBalance h net f p).toastText = "Balance Loaded" ∧
      (getBalance h net f p).toastClass = "show success" ∧
      (getBalance h net f p).summaryUser = "User ID: " ++ numberText h i.userId ∧
      (getBalance h net f p).balanceCurrency = "Available Balance (" ++ i.currency ++ ")" ∧
      (getBalance h net f p).balanceAmount = formatCurrency h i.currency balance) := by
  refine ⟨?_, ?_, ?_, ?_, ?_, ?_, ?_, ?_, ?_, ?_, ?_, ?_⟩
  · intro u q m hm
    simp [loadTransactions, hm]
  · intro u q ok m hm
    simp [loadTransactions, hm]
  · intro u q ok hm
    simp [loadTransactions, hm]
  · intro u q ok d q2 m hm hr
    simp [loadTransactions, hm, hr]
  · intro u q
    obtain ⟨tb, co, hl⟩ := loadTransactions_frame h net u q
    rw [hl]
    simp
  · intro answers
    exact ⟨transact_report h net (net.withHistory answers) net.deposit Request.deposit
        "Deposit Failed" "Deposit Successful" f p,
      transact_report h net (net.withHistory answers) net.withdraw Request.withdraw
        "Withdrawal Failed" "Withdrawal Successful" f p,
      getBalance_report h net answers f p⟩
  · intro b u hs
    exact transact_requested h net net.deposit Request.deposit "Deposit Failed"
      "Deposit Successful" f p b u hs
  · intro b u hs
    exact transact_requested h net net.withdraw Request.withdraw "Withdrawal Failed"
      "Withdrawal Successful" f p b u hs
  · intro b u hs
    exact getBalance_requested h net f p b u hs
  · intro i d amount hi hd hb hc
    obtain ⟨cls, tb, co, he⟩ := transact_accepted h net net.deposit Request.deposit
      "Deposit Failed" "Deposit Successful" f p i d amount hi hd hb hc
    unfold deposit
    rw [he]
    simp
  · intro i d amount hi hd hb hc
    obtain ⟨cls, tb, co, he⟩ := transact_accepted h net net.withdraw Request.withdraw
      "Withdrawal Failed" "Withdrawal Successful" f p i d amount hi hd hb hc
    unfold withdraw
    rw [he]
    simp
  · intro i balance hi hb hc
    obtain ⟨cls, tb, co, he⟩ := getBalance_loaded h net f p i balance hi hb hc
    rw [he]
    simp

/-- C10 at a deposit whose history request is rejected: the request is sent, the
failure goes to the console, and the deposit ends with its success toast. -/
theorem history_failure_keeps_success_witness :
    Net.noHistory.transactions (JSNum.fin 1) = Fetched.rejected "Failed to fetch" ∧
    (deposit sampleHost Net.noHistory sampleFields Page.blank).sent =
      [Request.deposit ⟨some 1, "USD", some 5⟩, Request.transactions (JSNum.fin 1)] ∧
    (deposit sampleHost Net.noHistory sampleFields Page.blank).console =
      ["Transaction Load Error: Failed to fetch"] ∧
    (deposit sampleHost Net.noHistory sampleFields Page.blank).toastText = "Deposit Successful" ∧
    (deposit sampleHost Net.noHistory sampleFields Page.blank).toastClass = "show success" :=
  have hs : (deposit sampleHost Net.noHistory sampleFields Page.blank).sent =
      Page.blank.sent ++ [Request.deposit ⟨some 1, "USD", some 5⟩,
        Request.transactions (JSNum.fin 1)] := by decide!
  have key := (history_failure_keeps_success sampleHost Net.noHistory sampleFields
    Page.blank).2.2.2.2.2.2.1 _ _ hs
  ⟨rfl, hs, by decide!, key.1, key.2.1⟩

/-- A balance check with the amount field empty: validation with
`requireAmount` false accepts it, and it ends with "Balance Loaded" also when
the history cannot be loaded. -/
theorem balance_check_without_amount :
    getValidatedInputs ⟨JSNum.fin 1, "USD", JSNum.fin 0⟩ true = Except.error "Invalid Amount" ∧
    (getBalance sampleHost Net.noHistory ⟨JSNum.fin 1, "USD", JSNum.fin 0⟩ Page.blank).toastText =
      "Balance Loaded" ∧
    (getBalance sampleHost Net.noHistory ⟨JSNum.fin 1, "USD", JSNum.fin 0⟩ Page.blank).balanceAmount =
      "$5.00" := by
  decide!

/-- A handler that fails before it asks for the history: with the currency text
"U S", `classList.add` throws on the token `balance-U S`; with an ok response
whose body is null, reading `new_balance` throws. Neither run requests the
history. -/
theorem failure_before_history :
    (deposit sampleHost Net.serving spacedFields Page.blank).toastClass = "show error" ∧
    (deposit sampleHost Net.serving spacedFields Page.blank).sent =
      [Request.deposit ⟨some 1, "U S", some 5⟩] ∧
    (deposit sampleHost
      ⟨Net.serving.balance, Net.serving.transactions,
        fun _ => Fetched.response true Content.null, Net.serving.withdraw⟩
      sampleFields Page.blank).toastClass = "show error" ∧
    (deposit sampleHost
      ⟨Net.serving.balance, Net.serving.transactions,
        fun _ => Fetched.response true Content.null, Net.serving.withdraw⟩
      sampleFields Page.blank).sent = [Request.deposit ⟨some 1, "USD", some 5⟩] := by
  decide!

end GlobalBank
